import Mathlib

/-!
Verification development for the `streamlit_demo_safeplay` repository.

The definitions below are a shallow embedding of the repository's
annotation-parsing, frame-query, trail-history, overlay-compositing and
video-export code (`src/utils/yolo_utils.py`, `src/utils/track_utils.py`,
`src/utils/shoe_utils.py`, `src/utils/mask_utils.py`, `src/app.py`).

Conventions of the embedding:
* JSON documents are modelled by the inductive `Json`; Python dicts are
  association lists keyed by `String` (first occurrence wins, mirroring a
  dict whose keys are unique).
* Python numbers are modelled by `ℚ`: the input files hold decimal
  literals, and every operation the code performs on them — comparison,
  rounding, truncation, affine blending — is exact rational arithmetic
  here.  Rational arithmetic is spelled through `Rat.divInt` /
  numerator-denominator primitives so that all definitions evaluate on
  concrete inputs; bridge lemmas relate them to the ordered-field
  operations of `ℚ`.
* Code that can raise an exception to its caller is modelled with
  `Except Unit`; code that swallows exceptions locally is total.
* File-system access is explicit: a parser receives the outcome of the
  read (`none` = file absent, `.error` = the raw read / JSON parse
  raised) instead of performing a path lookup.
-/

/-! ## Kernel-evaluable rational primitives -/

/-- Denominator of a rational as an integer. -/
def qden (q : ℚ) : ℤ := (q.den : ℤ)

/-- Comparison `a <= b` on rationals via cross multiplication. -/
def qle (a b : ℚ) : Bool := decide (a.num * qden b ≤ b.num * qden a)

/-- Comparison `a < b` on rationals via cross multiplication. -/
def qlt (a b : ℚ) : Bool := decide (a.num * qden b < b.num * qden a)

/-- Addition on rationals via numerators and denominators. -/
def qAdd (a b : ℚ) : ℚ := Rat.divInt (a.num * qden b + b.num * qden a) (qden a * qden b)

/-- Subtraction on rationals via numerators and denominators. -/
def qSub (a b : ℚ) : ℚ := Rat.divInt (a.num * qden b - b.num * qden a) (qden a * qden b)

/-- Multiplication on rationals via numerators and denominators. -/
def qMul (a b : ℚ) : ℚ := Rat.divInt (a.num * b.num) (qden a * qden b)

/-- Division on rationals via numerators and denominators (all use sites
have a nonzero divisor). -/
def qDiv (a b : ℚ) : ℚ := Rat.divInt (a.num * qden b) (qden a * b.num)

/-- Floor of a rational (Euclidean division of numerator by denominator). -/
def ratFloor (q : ℚ) : ℤ := q.num.ediv (qden q)

/-- Truncation toward zero, the semantics of Python's `int(float)`. -/
def ratTrunc (q : ℚ) : ℤ :=
  if 0 ≤ q.num then q.num.ediv (qden q) else -((-q.num).ediv (qden q))

/-- Python 3 `int(round(q))` on a float: round half to even.  The branch
conditions compare twice the fractional part of `q` against 1 by cross
multiplication with the denominator. -/
def pyRound (q : ℚ) : ℤ :=
  let f := ratFloor q
  let r2 := 2 * (q.num - f * qden q)
  if r2 < qden q then f
  else if qden q < r2 then f + 1
  else if f % 2 = 0 then f else f + 1

/-! ## JSON / Python value model -/

/-- Model of a parsed JSON / Python value.  `num` carries a rational: both
JSON integers and floats are exact decimals in the input files. -/
inductive Json where
  | null : Json
  | bool (b : Bool) : Json
  | num (q : ℚ) : Json
  | str (s : String) : Json
  | arr (xs : List Json) : Json
  | obj (kvs : List (String × Json)) : Json

/-- First-occurrence lookup in a Python dict modelled as an association
list (embeds `d.get(k)` / `d[k]`). -/
def dictGet (k : String) : List (String × Json) → Option Json
  | [] => none
  | (k', v) :: rest => if k' = k then some v else dictGet k rest

/-- Python truthiness of a JSON value (`if data:`). -/
def jsonTruthy : Json → Bool
  | .null => false
  | .bool b => b
  | .num q => decide (q.num ≠ 0)
  | .str s => decide (s ≠ "")
  | .arr xs => ¬ xs.isEmpty
  | .obj kvs => ¬ kvs.isEmpty

/-- Whether a JSON value is a Python dict (`isinstance(x, dict)`). -/
def Json.isObj : Json → Bool
  | .obj _ => true
  | _ => false

/-- Digit test on characters, by code point. -/
def isDigitCh (c : Char) : Bool := decide (48 ≤ c.toNat ∧ c.toNat ≤ 57)

/-- Numeric value of a digit list, most significant first. -/
def digitsVal : List Char → ℤ
  | [] => 0
  | c :: cs => digitsVal cs + (c.toNat - 48 : ℤ) * (10 : ℤ) ^ cs.length

/-- Python `int(s)` for a string: optional sign followed by digits
(surrounding spaces stripped); anything else raises, modelled as `none`. -/
def pyIntOfString (s : String) : Option ℤ :=
  let t := (s.data.dropWhile (fun c => c = ' ')).reverse.dropWhile (fun c => c = ' ') |>.reverse
  match t with
  | [] => none
  | c :: cs =>
    if c = '-' then
      if cs ≠ [] ∧ cs.all isDigitCh then some (-(digitsVal cs)) else none
    else if c = '+' then
      if cs ≠ [] ∧ cs.all isDigitCh then some (digitsVal cs) else none
    else if t.all isDigitCh then some (digitsVal t) else none

/-- Python `int(x)` on a JSON value: numbers truncate toward zero, bools
are 0/1, integer-literal strings parse, everything else raises
(`TypeError`/`ValueError`), modelled as `none`. -/
def pyInt : Json → Option ℤ
  | .num q => some (ratTrunc q)
  | .bool b => some (if b then 1 else 0)
  | .str s => pyIntOfString s
  | _ => none

/-- Python `float(x)` on a JSON value.  Numbers and bools convert;
fractional string parsing is abstracted to integer-literal strings (the
only use site, shoe-label confidence coercion, treats any failure as
`None`). -/
def pyFloat : Json → Option ℚ
  | .num q => some q
  | .bool b => some (if b then 1 else 0)
  | .str s => (pyIntOfString s).map (fun n => (n : ℚ))
  | _ => none

/-- Python `==` between a JSON value and an `int` (note `True == 1`).  A
rational equals an integer exactly when its reduced denominator is 1 and
its numerator is that integer. -/
def pyEqInt (j : Json) (n : ℤ) : Bool :=
  match j with
  | .num q => decide (q.den = 1 ∧ q.num = n)
  | .bool b => decide ((if b then (1 : ℤ) else 0) = n)
  | _ => false

/-- Python `str(x).lower()` as used on the shoe-label `class` field.
Representations of numbers and containers are abstracted to tagged
placeholders: the only consumer compares the result with the literal
`"small_bbox"`, which none of those placeholders can ever equal. -/
def pyStrLower : Json → String
  | .str s => s.toLower
  | .null => "none"
  | .bool true => "true"
  | .bool false => "false"
  | .num _ => "<number>"
  | .arr _ => "<list>"
  | .obj _ => "<dict>"

/-! ## Detections parser and query layer (`src/utils/yolo_utils.py`) -/

/-- The dictionary returned by `load_detections` (yolo_utils.py lines
8-24).  Its validation (lines 20-21) guarantees that the value observed
for the `"results"` key downstream is always a list, so that key is
embedded directly as `List Json`; `video_info` / `detection_info` are
`none` when the key is absent from the returned dict (no consumer
distinguishes an absent key from its default). -/
structure DetData where
  video_info : Option Json
  detection_info : Option Json
  results : List Json

/-- The `{"video_info": {}, "detection_info": {}, "results": []}`
structure returned on a missing file or any parse exception. -/
def emptyDetData : DetData :=
  { video_info := some (.obj []), detection_info := some (.obj []), results := [] }

/-- Embedding of `load_detections` (yolo_utils.py lines 8-24).  The
argument is the outcome of reading the path: `none` = file absent,
`some (.error ())` = `open`/`json.load` raised, `some (.ok j)` = the
file parsed to the JSON document `j`.  When `j` is not a dict,
`data.get` raises inside the `try` block and the handler returns the
empty structure. -/
def load_detections : Option (Except Unit Json) → DetData
  | none => emptyDetData
  | some (.error _) => emptyDetData
  | some (.ok (.obj kvs)) =>
    { video_info := dictGet "video_info" kvs
      detection_info := dictGet "detection_info" kvs
      results :=
        match dictGet "results" kvs with
        | some (.arr xs) => xs
        | _ => [] }
  | some (.ok _) => emptyDetData

/-- The value of the local `detections` taken from one entry of
`results`: `res.get("detections", []) or []` (yolo_utils.py lines 50,
56, 65). -/
def detectionsOf : Json → Json
  | .obj kvs =>
    let v := (dictGet "detections" kvs).getD (.arr [])
    if jsonTruthy v then v else .arr []
  | _ => .arr []

/-- The linear-scan fallback of `get_frame_detections` (yolo_utils.py
lines 52-59 and 61-68): detections of the first entry whose
`int(item.get("frame"))` equals the index; per-item exceptions are
swallowed (`continue`). -/
def gfdScan (frame_idx : ℤ) : List Json → Json
  | [] => .arr []
  | item :: rest =>
    match item with
    | .obj kvs =>
      match pyInt ((dictGet "frame" kvs).getD .null) with
      | some n => if n = frame_idx then detectionsOf item else gfdScan frame_idx rest
      | none => gfdScan frame_idx rest
    | _ => gfdScan frame_idx rest

/-- The lookup phase of `get_frame_detections` (yolo_utils.py lines
42-68): O(1) direct index when `0 <= frame_idx < len(results)` and the
stored frame number `==`-matches the index, otherwise the linear
scan. -/
def gfdLookup (results : List Json) (frame_idx : ℤ) : Json :=
  if h : 0 ≤ frame_idx ∧ frame_idx.toNat < results.length then
    match results.get ⟨frame_idx.toNat, h.2⟩ with
    | .obj kvs =>
      if pyEqInt ((dictGet "frame" kvs).getD .null) frame_idx then
        detectionsOf (.obj kvs)
      else gfdScan frame_idx results
    | _ => gfdScan frame_idx results
  else gfdScan frame_idx results

/-- One evaluation of the filter predicate
`det.get("confidence", 0.0) >= min_confidence` (yolo_utils.py line 74):
raises (`.error`) when `det` is not a dict (`AttributeError`) or the
stored confidence value is not order-comparable with a float
(`TypeError`). -/
def pyConfTest (mc : ℚ) (det : Json) : Except Unit Bool :=
  match det with
  | .obj kvs =>
    match (dictGet "confidence" kvs).getD (.num 0) with
    | .num q => .ok (qle mc q)
    | .bool b => .ok (qle mc (if b then 1 else 0))
    | _ => .error ()
  | _ => .error ()

/-- The list comprehension of yolo_utils.py lines 72-75: left-to-right
filtering that propagates the first raised exception. -/
def pyConfFilterList (mc : ℚ) : List Json → Except Unit (List Json)
  | [] => .ok []
  | d :: ds => do
    let b ← pyConfTest mc d
    let rest ← pyConfFilterList mc ds
    .ok (if b then d :: rest else rest)

/-- Embedding of `get_frame_detections` (yolo_utils.py lines 27-77).
Returns the Python value produced (the raw `detections` value when no
filter runs — which is the unmodified stored value, not necessarily a
list, when a filter is requested but `detections` is falsy), or
`.error` when the confidence filter raises. -/
def get_frame_detections (data : DetData) (frame_idx : ℤ)
    (min_confidence : Option ℚ) : Except Unit Json :=
  let detections := gfdLookup data.results frame_idx
  match min_confidence with
  | none => .ok detections
  | some m =>
    if jsonTruthy detections then
      match detections with
      | .arr l => (pyConfFilterList m l).map .arr
      | _ => .error ()
    else .ok detections

/-- The accumulation loop of `compute_avg_detections` (yolo_utils.py
lines 93-103), returning (total, count).  The confidence filter can
raise out of the function. -/
def avgLoop (mc : Option ℚ) : List Json → Except Unit (ℕ × ℕ)
  | [] => .ok (0, 0)
  | item :: rest =>
    match item with
    | .obj kvs =>
      match (dictGet "detections" kvs).getD (.arr []) with
      | .arr l => do
        let l' ← match mc with
          | none => .ok l
          | some m => pyConfFilterList m l
        let tc ← avgLoop mc rest
        .ok (tc.1 + l'.length, tc.2 + 1)
      | _ => avgLoop mc rest
    | _ => avgLoop mc rest

/-- Embedding of `compute_avg_detections` (yolo_utils.py lines 80-106). -/
def compute_avg_detections (data : DetData) (min_confidence : Option ℚ) :
    Except Unit ℚ :=
  if data.results.isEmpty then .ok 0
  else do
    let tc ← avgLoop min_confidence data.results
    .ok (if tc.2 = 0 then 0 else Rat.divInt (tc.1 : ℤ) (tc.2 : ℤ))

/-! ## MOT track parser (`src/utils/track_utils.py`) -/

/-- One whitespace/comma-separated field of a track line after `float()`
coercion: `.num q` when `float(s)` succeeds with value `q`, `.bad` when
it raises (non-numeric field).  The string-level splitting of
track_utils.py lines 33-40 is modelled at this token level; a blank or
comment line is any token list the parser skips. -/
inductive Tok where
  | num (q : ℚ) : Tok
  | bad : Tok
  deriving DecidableEq

def tokFloat : Tok → Option ℚ
  | .num q => some q
  | .bad => none

/-- Bounding box in two-corner form, integer pixels. -/
structure BBox where
  x1 : ℤ
  y1 : ℤ
  x2 : ℤ
  y2 : ℤ
  deriving DecidableEq

/-- One parsed track record (track_utils.py lines 61-66). -/
structure TrackRec where
  frame : ℤ
  id : ℤ
  bbox : BBox
  conf : Option ℚ
  deriving DecidableEq

/-- The optional 7th field of a track line
(`conf = float(parts[6]) if len(parts) >= 7 else None`, track_utils.py
line 48): `some none` = no confidence column, `some (some c)` =
confidence parsed, `none` = `float(parts[6])` raises (line skipped). -/
def motConfField : List Tok → Option (Option ℚ)
  | [] => some none
  | t6 :: _ =>
    match tokFloat t6 with
    | some c => some (some c)
    | none => none

/-- Embedding of the per-line body of `load_mot_tracks` (track_utils.py
lines 36-66): fewer than 6 fields skips the line (`continue`, the
shorter patterns here), the first 6 fields (and the 7th when present)
must `float()`-parse, the frame converts 1-based → 0-based via
`max(0, frame - 1)`, and the bbox converts to two-corner form with
Python rounding.  `none` = the line is skipped. -/
def parseMotLine : List Tok → Option TrackRec
  | t0 :: t1 :: t2 :: t3 :: t4 :: t5 :: rest => do
    let f ← tokFloat t0
    let i ← tokFloat t1
    let x ← tokFloat t2
    let y ← tokFloat t3
    let w ← tokFloat t4
    let h ← tokFloat t5
    let conf ← motConfField rest
    let frame0 := max 0 (ratTrunc f - 1)
    some { frame := frame0
           id := ratTrunc i
           bbox := { x1 := pyRound x, y1 := pyRound y
                     x2 := pyRound (qAdd x w), y2 := pyRound (qAdd y h) }
           conf := conf }
  | _ => none

/-- The dictionary returned by `load_mot_tracks`. -/
structure MotData where
  tracks : List TrackRec
  source : String
  deriving DecidableEq

/-- Embedding of `load_mot_tracks` (track_utils.py lines 9-72).  The
file argument: `none` = file absent; `some (lines, errAfter)` = the
line iteration yielded `lines` (already field-split, see `Tok`) and,
when `errAfter` is true, then raised (e.g. a decode error) — the outer
handler (lines 67-69) swallows that and keeps the tracks parsed so far. -/
def load_mot_tracks (txt_path : String) :
    Option (List (List Tok) × Bool) → MotData
  | none => { tracks := [], source := txt_path }
  | some (lines, _errAfter) =>
    { tracks := lines.filterMap parseMotLine, source := txt_path }

/-- Embedding of `get_frame_tracks` (track_utils.py lines 75-95):
records coming from the parser are well-typed, so the per-item `try`
never fires; the bbox dict is copied (value semantics make the copy
implicit here). -/
def get_frame_tracks (data : MotData) (frame_idx : ℤ) : List TrackRec :=
  data.tracks.filter (fun tr => tr.frame = frame_idx)

/-! ## Shoe-label parser (`src/utils/shoe_utils.py`) -/

/-- One parsed shoe-label record (shoe_utils.py lines 55-59).  The
passthrough metadata copied by `rec = dict(item)` is not semantically
used anywhere downstream and is not carried. -/
structure ShoeRec where
  cls : Json
  confidence : Option ℚ
  frame : ℤ
  tracker_id : ℤ

/-- Per-entry body of the `load_shoe_labels` loop (shoe_utils.py lines
31-61): `none` = the entry is skipped (`continue`). -/
def processShoeEntry (key : String) (item : Json) : Option ShoeRec :=
  match item with
  | .obj kvs =>
    let cls := (dictGet "class" kvs).getD .null
    if pyStrLower cls = "small_bbox" then none
    else do
      let frame ← pyInt ((dictGet "frame" kvs).getD (.num (-1)))
      let tid ← pyIntOfString key
      if frame < 0 then none
      else
        let conf := match (dictGet "confidence" kvs).getD .null with
          | .null => none
          | j => pyFloat j
        some { cls := cls, confidence := conf, frame := frame, tracker_id := tid }
  | _ => none

/-- The dictionary returned by `load_shoe_labels`. -/
structure ShoeData where
  labels : List ShoeRec
  source : String

/-- Embedding of `load_shoe_labels` (shoe_utils.py lines 7-64).  The
`try` covers only `open` + `json.load`; the subsequent
`(raw or {}).items()` raises `AttributeError` out of the function when
the parsed document is truthy but not a dict — hence the `Except`
result. -/
def load_shoe_labels (json_path : String) :
    Option (Except Unit Json) → Except Unit ShoeData
  | none => .ok { labels := [], source := json_path }
  | some (.error _) => .ok { labels := [], source := json_path }
  | some (.ok raw) =>
    if jsonTruthy raw then
      match raw with
      | .obj kvs =>
        .ok { labels := kvs.filterMap (fun kv => processShoeEntry kv.1 kv.2)
              source := json_path }
      | _ => .error ()
    else .ok { labels := [], source := json_path }

/-- Embedding of `get_tracker_shoes_static` (shoe_utils.py lines
83-113): per tracker id, keep the record with the strictly highest
confidence seen while scanning (`conf > prev` to replace), with a
missing/`None` confidence read as 0.0. -/
def shoeConfVal (r : ShoeRec) : ℚ := (r.confidence).getD 0

structure ShoeInfo where
  cls : Json
  confidence : ℚ
  frame : ℤ

def shoesStaticStep (acc : List (ℤ × ShoeInfo)) (r : ShoeRec) : List (ℤ × ShoeInfo) :=
  match acc.lookup r.tracker_id with
  | none => acc ++ [(r.tracker_id, ⟨r.cls, shoeConfVal r, r.frame⟩)]
  | some prev =>
    if qlt prev.confidence (shoeConfVal r) then
      acc.map (fun kv => if kv.1 = r.tracker_id
                         then (kv.1, ⟨r.cls, shoeConfVal r, r.frame⟩) else kv)
    else acc

def get_tracker_shoes_static (data : ShoeData) : List (ℤ × ShoeInfo) :=
  data.labels.foldl shoesStaticStep []

/-! ## Raster model and overlay compositor
(`src/utils/mask_utils.py`, drawing parts of `yolo_utils.py` /
`track_utils.py`)

Images are BGR pixel grids.  The external OpenCV drawing primitives
(`cv2.rectangle`, `cv2.putText`, `cv2.addWeighted`, `cv2.polylines`,
`cv2.getTextSize`, `cv2.resize`) are out of scope for the repository
(the spec's "raster/drawing backend") and are modelled here by simple
executable stand-ins; every claim below depends only on which buffer a
call writes into and returns, never on the drawn shapes. -/

/-- A BGR pixel. -/
abbrev Pix := ℤ × ℤ × ℤ

/-- A raster image: rows of BGR pixels. -/
abbrev Image := List (List Pix)

/-- Association lookup keyed by an integer (Python dict keyed by ids). -/
def zlookup {α : Type} (k : ℤ) : List (ℤ × α) → Option α
  | [] => none
  | (k', v) :: rest => if k' = k then some v else zlookup k rest

def mapPixels (img : Image) (f : ℕ → ℕ → Pix → Pix) : Image :=
  img.mapIdx fun i row => row.mapIdx fun j p => f i j p

/-- Model of `cv2.rectangle`: color the border ring of the rectangle,
or its whole interior when `thickness` is negative (filled). -/
def cv2Rectangle (img : Image) (p1 p2 : ℤ × ℤ) (color : Pix) (thickness : ℤ) : Image :=
  let xlo := min p1.1 p2.1
  let xhi := max p1.1 p2.1
  let ylo := min p1.2 p2.2
  let yhi := max p1.2 p2.2
  mapPixels img fun i j old =>
    if xlo ≤ (j : ℤ) ∧ (j : ℤ) ≤ xhi ∧ ylo ≤ (i : ℤ) ∧ (i : ℤ) ≤ yhi ∧
       (thickness < 0 ∨ (j : ℤ) < xlo + thickness ∨ xhi - thickness < (j : ℤ) ∨
        (i : ℤ) < ylo + thickness ∨ yhi - thickness < (i : ℤ))
    then color else old

/-- Model of `cv2.getTextSize`: ((width, height), baseline) as a simple
function of text length and font scale. -/
def cv2GetTextSize (text : String) (scale : ℚ) : (ℤ × ℤ) × ℤ :=
  ((ratTrunc (qMul scale 10) * (text.length : ℤ), ratTrunc (qMul scale 20)), 3)

/-- Model of `cv2.putText`: fill the text's bounding box with the text
color. -/
def cv2PutText (img : Image) (text : String) (org : ℤ × ℤ) (scale : ℚ) (color : Pix) : Image :=
  let sz := cv2GetTextSize text scale
  cv2Rectangle img (org.1, org.2 - sz.1.2) (org.1 + sz.1.1, org.2) color (-1)

/-- Saturating rounding cast to the uint8 range, as `cv2.addWeighted`
performs per destination pixel. -/
def satCastU8 (q : ℚ) : ℤ := max 0 (min 255 (pyRound q))

def pixAddWeighted (alpha beta gamma : ℚ) (p q : Pix) : Pix :=
  (satCastU8 (qAdd (qAdd (qMul alpha ((p.1 : ℚ))) (qMul beta ((q.1 : ℚ)))) gamma),
   satCastU8 (qAdd (qAdd (qMul alpha ((p.2.1 : ℚ))) (qMul beta ((q.2.1 : ℚ)))) gamma),
   satCastU8 (qAdd (qAdd (qMul alpha ((p.2.2 : ℚ))) (qMul beta ((q.2.2 : ℚ)))) gamma))

/-- Model of `cv2.addWeighted(a, alpha, b, beta, gamma, dst)`. -/
def cv2AddWeighted (a : Image) (alpha : ℚ) (b : Image) (beta : ℚ) (gamma : ℚ) : Image :=
  a.zipWith (fun ra rb => ra.zipWith (pixAddWeighted alpha beta gamma) rb) b

/-- Model of `cv2.polylines`: color every pixel within `thickness`
Chebyshev distance of a vertex of the polyline. -/
def cv2Polylines (img : Image) (pts : List (ℤ × ℤ)) (color : Pix) (thickness : ℤ) : Image :=
  mapPixels img fun i j old =>
    if pts.any (fun p => decide ((p.1 - (j : ℤ)).natAbs ≤ thickness.toNat ∧
                                 (p.2 - (i : ℤ)).natAbs ≤ thickness.toNat))
    then color else old

/-! ### ROI masks (`src/utils/mask_utils.py`) -/

/-- A mask raster as loaded by `load_mask` (`cv2.imread(...,
IMREAD_UNCHANGED)`): single channel (`ndim == 2`), (H, W, 1)/(H, W, 3)/
(H, W, 4) arrays, or an unsupported channel count. -/
inductive Mask where
  | gray (px : List (List ℤ)) : Mask
  | c1 (px : List (List ℤ)) : Mask
  | c3 (px : List (List Pix)) : Mask
  | c4 (px : List (List (ℤ × ℤ × ℤ × ℤ))) : Mask
  | badShape : Mask

/-- Conversion of the mask to BGRA (mask_utils.py lines 24-48): a single
alpha channel becomes zero BGR + alpha, BGR gains alpha 255, BGRA is
kept, anything else makes the function return the frame unchanged
(`none`). -/
def maskToRGBA : Mask → Option (List (List (ℤ × ℤ × ℤ × ℤ)))
  | .gray px => some (px.map (fun row => row.map (fun a => (0, 0, 0, a))))
  | .c1 px => some (px.map (fun row => row.map (fun a => (0, 0, 0, a))))
  | .c3 px => some (px.map (fun row => row.map (fun p => (p.1, p.2.1, p.2.2, 255))))
  | .c4 px => some px
  | .badShape => none

/-- Nearest-neighbour model of `cv2.resize` for BGRA rasters. -/
def resizeRGBA (px : List (List (ℤ × ℤ × ℤ × ℤ))) (h w : ℕ) :
    List (List (ℤ × ℤ × ℤ × ℤ)) :=
  let hm := px.length
  let wm := (px.headD []).length
  (List.range h).map fun i =>
    (List.range w).map fun j =>
      (px.getD (i * hm / h) []).getD (j * wm / w) (0, 0, 0, 0)

/-- The numpy float→uint8 store of mask_utils.py line 67: truncate
toward zero, wrap modulo 256. -/
def u8cast (q : ℚ) : ℤ := (ratTrunc q) % 256

/-- One channel of the blend on mask_utils.py lines 66-68:
`frame_c * (1 - mask_alpha*alpha) + mask_bgr_c * mask_alpha * alpha`
with `mask_alpha = alpha_pixel / 255`. -/
def blendChannel (alpha : ℚ) (fc mc a : ℤ) : ℤ :=
  let ma := Rat.divInt a 255
  u8cast (qAdd (qMul ((fc : ℚ)) (qSub 1 (qMul ma alpha))) (qMul ((mc : ℚ)) (qMul ma alpha)))

/-- The in-place blend of mask_utils.py lines 57-68: resize the colored
mask to the frame's resolution, then blend each BGR channel against the
mask's alpha. -/
def blendMask (frame : Image) (colored : List (List (ℤ × ℤ × ℤ × ℤ))) (alpha : ℚ) : Image :=
  let mr := resizeRGBA colored frame.length (frame.headD []).length
  frame.mapIdx fun i row => row.mapIdx fun j p =>
    let mp := (mr.getD i []).getD j (0, 0, 0, 0)
    (blendChannel alpha p.1 mp.1 mp.2.2.2,
     blendChannel alpha p.2.1 mp.2.1 mp.2.2.2,
     blendChannel alpha p.2.2 mp.2.2.1 mp.2.2.2)

/-- What one compositor call returns at the buffer level. -/
inductive RasterRet where
  | raised : RasterRet
  | retNone : RasterRet
  | fresh (img : Image) : RasterRet
  | sameAsInput : RasterRet

/-- Result of one compositor call: what it returns, and the contents of
the input buffer after the call (capturing in-place mutation). -/
structure RasterResult where
  ret : RasterRet
  inputAfter : Image

/-- Embedding of `apply_mask_to_frame` (mask_utils.py lines 17-70).  The
blend on lines 66-68 assigns into `frame[:, :, c]`, and every `return`
(lines 22, 45, 48, 70) returns `frame` itself, so the call always hands
back the input buffer (`.sameAsInput`), mutated in place whenever the
mask is usable. -/
def apply_mask_to_frame (frame : Image) (mask : Option Mask) (color : Pix) (alpha : ℚ) :
    RasterResult :=
  match mask with
  | none => ⟨.sameAsInput, frame⟩
  | some m =>
    match maskToRGBA m with
    | none => ⟨.sameAsInput, frame⟩
    | some m4 =>
      let colored := m4.map (fun row => row.map (fun p => (color.1, color.2.1, color.2.2, p.2.2.2)))
      ⟨.sameAsInput, blendMask frame colored alpha⟩

/-! ### Detection-box drawing (`yolo_utils.py` lines 109-131, 190-234) -/

/-- Embedding of `muted_color_palette` (yolo_utils.py lines 109-131),
RGB triples. -/
def muted_palette_base : List Pix :=
  [(108, 117, 125), (52, 152, 219), (46, 204, 113), (241, 196, 15), (231, 76, 60),
   (155, 89, 182), (26, 188, 156), (243, 156, 18), (149, 165, 166), (52, 73, 94)]

def muted_color_palette (n : ℕ) : List Pix :=
  if n ≤ muted_palette_base.length then muted_palette_base.take n
  else (List.range n).map (fun i => muted_palette_base.getD (i % muted_palette_base.length) (0, 0, 0))

/-- Python `str(x)` as used for label text; numeric and container
renderings are abstracted placeholders (label text feeds only the
drawing-backend models). -/
def pyStr : Json → String
  | .str s => s
  | .null => "None"
  | .bool true => "True"
  | .bool false => "False"
  | .num _ => "<number>"
  | .arr _ => "<list>"
  | .obj _ => "<dict>"

/-- One bbox coordinate `int(round(bbox.get(k, 0)))` (yolo_utils.py
lines 209-212); `none` = the per-detection `try` caught (`continue`). -/
def bboxCoord (bbox : Json) (k : String) : Option ℤ :=
  match bbox with
  | .obj kvs =>
    match (dictGet k kvs).getD (.num 0) with
    | .num q => some (pyRound q)
    | .bool b => some (if b then 1 else 0)
    | _ => none
  | _ => none

/-- The label of yolo_utils.py lines 219-221: the class name when no
confidence is present, else `f"conf: {conf:.2f}"`; the f-string raises
(`none`) when the confidence value is not a number. -/
def detLabel (kvs : List (String × Json)) : Option String :=
  match (dictGet "confidence" kvs).getD .null with
  | .null => some (pyStr ((dictGet "class" kvs).getD (.str "obj")))
  | .num _ => some "conf: <f2>"
  | .bool _ => some "conf: <f2>"
  | _ => none

/-- Body of the per-detection loop of `draw_bboxes_on_image`
(yolo_utils.py lines 206-232).  Line 207 runs outside the `try`: a
truthy non-dict detection raises out of the function (`.error`). -/
def drawBboxOne (colors : List Pix) (i : ℕ) (out : Image) (det : Json) :
    Except Unit Image :=
  match (if jsonTruthy det then det else .obj []) with
  | .obj kvs =>
    let bbox := (dictGet "bbox" kvs).getD (.obj [])
    match bboxCoord bbox "x1", bboxCoord bbox "y1", bboxCoord bbox "x2", bboxCoord bbox "y2" with
    | some x1, some y1, some x2, some y2 =>
      let color := colors.getD (i % colors.length) (0, 0, 0)
      let out1 := cv2Rectangle out (x1, y1) (x2, y2) color 2
      match detLabel kvs with
      | none => .error ()
      | some label =>
        let ts := cv2GetTextSize label (mkRat 1 2)
        let th := ts.1.2 + ts.2
        let xbg2 := x1 + ts.1.1 + 6
        let ybg2 := y1 + th + 4
        let overlay := cv2Rectangle out1 (x1, y1) (xbg2, ybg2) color (-1)
        let out2 := cv2AddWeighted overlay (mkRat 1 4) out1 (mkRat 3 4) 0
        .ok (cv2PutText out2 label (x1 + 3, y1 + th) (mkRat 1 2) (20, 20, 20))
    | _, _, _, _ => .ok out
  | _ => .error ()

def drawBboxesGo (colors : List Pix) : ℕ → Image → List Json → Except Unit Image
  | _, out, [] => .ok out
  | i, out, det :: rest => do
    let out' ← drawBboxOne colors i out det
    drawBboxesGo colors (i + 1) out' rest

/-- Contents drawn by `draw_bboxes_on_image` into its fresh output
buffer (`out = image_bgr.copy()`, yolo_utils.py line 203). -/
def drawBboxesContents (img : Image) (dets : List Json) : Except Unit Image :=
  drawBboxesGo (muted_color_palette (max 1 dets.length)) 0 img dets

/-- Embedding of `draw_bboxes_on_image` (yolo_utils.py lines 190-234) at
the buffer level: `None` input returns `None`; without the drawing
backend the input itself is returned; otherwise all drawing happens on
the copy `out`, the input buffer is untouched, and the fresh buffer is
returned (or an exception escapes, input still untouched). -/
def draw_bboxes_on_image (cv2ok : Bool) : Option Image → List Json → Option RasterResult
  | none, _ => none
  | some img, dets =>
    some (if cv2ok then
            match drawBboxesContents img dets with
            | .ok out => ⟨.fresh out, img⟩
            | .error _ => ⟨.raised, img⟩
          else ⟨.sameAsInput, img⟩)

/-! ### Track drawing (`track_utils.py` lines 98-261) -/

/-- Embedding of `pleasant_palette` (track_utils.py lines 98-112), BGR
triples. -/
def pleasant_palette : List Pix :=
  [(125, 117, 108), (219, 152, 52), (113, 204, 46), (15, 196, 241), (60, 76, 231),
   (182, 89, 155), (156, 188, 26), (18, 156, 243), (166, 165, 149), (94, 73, 52)]

/-- Embedding of `id_color` (track_utils.py lines 115-121):
`pal = palette or pleasant_palette()` (an empty or missing palette falls
back to the fixed one), then `pal[abs(int(track_id)) % len(pal)]`. -/
def id_color (track_id : ℤ) (palette : Option (List Pix)) : Pix :=
  let pal := match palette with
    | some p => if p.isEmpty then pleasant_palette else p
    | none => pleasant_palette
  if pal.isEmpty then (80, 200, 120)
  else pal.getD (track_id.natAbs % pal.length) (80, 200, 120)

/-- One Chaikin corner-cutting pass over consecutive point pairs
(track_utils.py lines 232-239): each pair `(p, q)` contributes the
25%/75% interpolants. -/
def chaikinPairs : List (ℚ × ℚ) → List (ℚ × ℚ)
  | p :: q :: rest =>
    (qAdd (qMul (mkRat 3 4) p.1) (qMul (mkRat 1 4) q.1),
     qAdd (qMul (mkRat 3 4) p.2) (qMul (mkRat 1 4) q.2)) ::
    (qAdd (qMul (mkRat 1 4) p.1) (qMul (mkRat 3 4) q.1),
     qAdd (qMul (mkRat 1 4) p.2) (qMul (mkRat 3 4) q.2)) ::
    chaikinPairs (q :: rest)
  | _ => []

def chaikinStep (pts : List (ℚ × ℚ)) : List (ℚ × ℚ) :=
  if pts.length < 3 then pts
  else
    match pts with
    | [] => []
    | p0 :: _ => (p0 :: chaikinPairs pts) ++ [pts.getLastD p0]

/-- Embedding of the `chaikin` smoother (track_utils.py lines 225-241). -/
def chaikin (points : List (ℤ × ℤ)) (iterations : ℕ) : List (ℤ × ℤ) :=
  if points.length < 3 ∨ iterations = 0 then points
  else
    (chaikinStep^[iterations] (points.map (fun p => (((p.1 : ℚ)), ((p.2 : ℚ)))))).map
      (fun p => (pyRound p.1, pyRound p.2))

/-- Per-identity static shoe label text of track_utils.py line 199. -/
def shoeText (info : ShoeInfo) : String := pyStr info.cls ++ " (<f2>)"

/-- Body of the per-track box/label pass of `draw_tracks_on_image`
(track_utils.py lines 159-221). -/
def drawTrackOne (frame_shoes : List (ℤ × ShoeInfo)) (out : Image) (tr : TrackRec) : Image :=
  let color := id_color tr.id none
  let x1 := tr.bbox.x1
  let y1 := tr.bbox.y1
  let x2 := tr.bbox.x2
  let y2 := tr.bbox.y2
  let out1 := cv2Rectangle out (x1, y1) (x2, y2) color 2
  let label := "ID " ++ toString tr.id
  let ts := cv2GetTextSize label (mkRat 3 5)
  let thTot := ts.1.2 + ts.2
  let ybg1 := max 0 (y1 - thTot - 4 - 2)
  let xbg2 := x1 + ts.1.1 + 2 * 4
  let ybg2 := y1 - 2
  let overlay := cv2Rectangle out1 (x1, ybg1) (xbg2, ybg2) color (-1)
  let out2 := cv2AddWeighted overlay (mkRat 1 4) out1 (mkRat 3 4) 0
  let out3 := cv2PutText out2 label (x1 + 4, ybg2 - 4) (mkRat 3 5) (220, 20, 60)
  match zlookup tr.id frame_shoes with
  | none => out3
  | some info =>
    let text := shoeText info
    let ts2 := cv2GetTextSize text (mkRat 1 2)
    let w := (out3.headD []).length
    let sy1 := y2 + 2
    let sy2 := sy1 + ts2.1.2 + 6
    let sx1 := max 0 x1
    let sx1' := if sx1 + ts2.1.1 + 4 > (w : ℤ) then (w : ℤ) - ts2.1.1 - 4 else sx1
    let sx2 := if sx1 + ts2.1.1 + 4 > (w : ℤ) then (w : ℤ) else sx1 + ts2.1.1 + 4
    let shoeOverlay := cv2Rectangle out3 (sx1', sy1) (sx2, sy2) (0, 0, 0) (-1)
    let out4 := cv2AddWeighted shoeOverlay (mkRat 3 5) out3 (mkRat 2 5) 0
    cv2PutText out4 text (sx1' + 2, sy1 + ts2.1.2 + 2) (mkRat 1 2) (255, 255, 255)

/-- Body of the trail pass of `draw_tracks_on_image` (track_utils.py
lines 243-259): skip identities without history or with fewer than two
points. -/
def drawTrailOne (hist : List (ℤ × List (ℤ × ℤ))) (smooth : Bool) (iters : ℕ)
    (thick : ℤ) (out : Image) (tr : TrackRec) : Image :=
  match zlookup tr.id hist with
  | none => out
  | some pts =>
    if pts.length < 2 then out
    else cv2Polylines out (if smooth then chaikin pts iters else pts) (id_color tr.id none) thick

/-- Contents drawn by `draw_tracks_on_image` into its fresh output
buffer (`out = image_bgr.copy()`, track_utils.py line 155). -/
def drawTracksContents (img : Image) (tracks : List TrackRec)
    (track_history : Option (List (ℤ × List (ℤ × ℤ))))
    (frame_shoes : List (ℤ × ShoeInfo))
    (smooth_trail : Bool) (smooth_iters : ℕ) (trail_thickness : ℤ) : Image :=
  let out := tracks.foldl (drawTrackOne frame_shoes) img
  match track_history with
  | none => out
  | some hist => tracks.foldl (drawTrailOne hist smooth_trail smooth_iters trail_thickness) out

/-- Embedding of `draw_tracks_on_image` (track_utils.py lines 124-261)
at the buffer level, mirroring `draw_bboxes_on_image`: all drawing
targets the copy `out`; the input buffer is never written. -/
def draw_tracks_on_image (cv2ok : Bool) : Option Image → List TrackRec →
    Option (List (ℤ × List (ℤ × ℤ))) → List (ℤ × ShoeInfo) → Bool → ℕ → ℤ →
    Option RasterResult
  | none, _, _, _, _, _, _ => none
  | some img, tracks, hist, shoes, st, si, tt =>
    some (if cv2ok then
            ⟨.fresh (drawTracksContents img tracks hist shoes st si tt), img⟩
          else ⟨.sameAsInput, img⟩)

/-! ### Per-frame shoe queries and summary legend (`shoe_utils.py`) -/

/-- Embedding of `get_frame_shoes` (shoe_utils.py lines 67-81): records
from the parser are well-typed, so the per-item `try` never fires. -/
def get_frame_shoes (data : ShoeData) (frame_idx : ℤ) : List ShoeRec :=
  data.labels.filter (fun r => r.frame = frame_idx)

/-- The per-record class key of `summarize_frame_shoes`
(`it.get("class") or "Unknown"`, shoe_utils.py line 124); class values
are keyed by their string form (they are strings in every real input). -/
def shoeClassKey (r : ShoeRec) : String :=
  if jsonTruthy r.cls then pyStr r.cls else "Unknown"

/-- First-seen-order deduplication of a string list. -/
def dedupStrGo (seen : List String) : List String → List String
  | [] => []
  | s :: rest =>
    if seen.any (fun t => t = s) then dedupStrGo seen rest
    else s :: dedupStrGo (s :: seen) rest

/-- Embedding of `summarize_frame_shoes` (shoe_utils.py lines 115-133):
(counts by class, average confidence by class); classes with no present
confidence are absent from the average map. -/
def summarize_frame_shoes (data : ShoeData) (frame_idx : ℤ) :
    List (String × ℕ) × List (String × ℚ) :=
  let items := get_frame_shoes data frame_idx
  let keys := dedupStrGo [] (items.map shoeClassKey)
  let counts := keys.map (fun k => (k, (items.filter (fun r => shoeClassKey r = k)).length))
  let avg := keys.filterMap (fun k =>
    let cs := (items.filter (fun r => shoeClassKey r = k)).filterMap (fun r => r.confidence)
    if cs.isEmpty then none
    else some (k, qDiv (cs.foldl qAdd 0) (((cs.length : ℤ) : ℚ))))
  (counts, avg)

/-- String-order insertion used to model `sorted(counts.keys())`
(shoe_utils.py line 171). -/
def insertSortedStr (s : String) : List String → List String
  | [] => [s]
  | t :: rest => if s < t then s :: t :: rest else t :: insertSortedStr s rest

def sortStrings : List String → List String
  | [] => []
  | s :: rest => insertSortedStr s (sortStrings rest)

/-- The item-rendering loop of shoe_utils.py lines 209-212. -/
def shoeLegendLines (out : Image) (curY : ℤ) : List (String × (ℤ × ℤ)) → Image
  | [] => out
  | (t, wh) :: rest =>
    shoeLegendLines (cv2PutText out t (10 + 8, curY + wh.2) (mkRat 3 5) (230, 230, 230))
      (curY + wh.2 + 6) rest

/-- Contents drawn by `draw_shoes_summary_on_image` (shoe_utils.py lines
154-214) into its fresh buffer: a semi-transparent legend panel in the
top-left with one line per class. -/
def drawShoesSummaryContents (img : Image) (counts : List (String × ℕ))
    (avg : List (String × ℚ)) : Image :=
  let classes := sortStrings (counts.map Prod.fst)
  let lines := classes.map (fun c =>
    match avg.lookup c with
    | some _ => c ++ ": <n> (avg <f2>)"
    | none => c ++ ": <n>")
  if lines.isEmpty then img
  else
    let sizes := lines.map (fun t => (cv2GetTextSize t (mkRat 3 5)).1)
    let boxW := (sizes.foldl (fun m wh => max m wh.1) 0) + 2 * 8
    let boxH := (sizes.foldl (fun m wh => m + wh.2) 0) + ((lines.length : ℤ) - 1) * 6 + 2 * 8
    let overlay := cv2Rectangle img (10, 10) (10 + boxW, 10 + boxH) (40, 40, 40) (-1)
    let out := cv2AddWeighted overlay (mkRat 7 20) img (mkRat 13 20) 0
    let tsT := cv2GetTextSize "Shoes" (mkRat 7 10)
    let out1 := cv2PutText out "Shoes" (10 + 8, 10 + 8 + tsT.1.2) (mkRat 7 10) (255, 255, 255)
    shoeLegendLines out1 (10 + 8 + tsT.1.2 + 10) (lines.zip sizes)

/-! ## Trail history (`track_utils.py` lines 350-358, `app.py` lines
650-669) -/

/-- The fixed trail capacity (`deque(maxlen=25)` /
`history_len = 25`). -/
def TRAIL_CAP : ℕ := 25

/-- `deque(maxlen=cap).append`: append on the right, evicting from the
left when the queue is full (track_utils.py line 358, app.py line 669). -/
def dequeAppend (cap : ℕ) (xs : List (ℤ × ℤ)) (p : ℤ × ℤ) : List (ℤ × ℤ) :=
  let ys := xs ++ [p]
  ys.drop (ys.length - cap)

/-- Bottom-center anchor of a track's bbox: `cx = int((x1 + x2) / 2)`
(true division then `int` truncation), `cy = int(bbox["y2"])`
(track_utils.py lines 353-354, app.py lines 661-662). -/
def trackAnchor (tr : TrackRec) : ℤ × ℤ :=
  (ratTrunc (Rat.divInt (tr.bbox.x1 + tr.bbox.x2) 2), tr.bbox.y2)

/-- One frame's trail-history update (track_utils.py lines 350-358 and
app.py lines 657-669): create the identity's queue on first sight, then
append its anchor with FIFO eviction at capacity `TRAIL_CAP`. -/
def historyUpdate (hist : List (ℤ × List (ℤ × ℤ))) (tracks : List TrackRec) :
    List (ℤ × List (ℤ × ℤ)) :=
  tracks.foldl (fun h tr =>
    match zlookup tr.id h with
    | none => h ++ [(tr.id, dequeAppend TRAIL_CAP [] (trackAnchor tr))]
    | some q => h.map (fun kv =>
        if kv.1 = tr.id then (kv.1, dequeAppend TRAIL_CAP q (trackAnchor tr)) else kv)) hist

/-- The interactive rebuild of the trail window (app.py lines 650-669):
replay `historyUpdate` over the `TRAIL_CAP` frames ending at the
displayed frame. -/
def rebuildTrailHistory (data : MotData) (frame_idx : ℤ) : List (ℤ × List (ℤ × ℤ)) :=
  let start_f := max 0 (frame_idx - (TRAIL_CAP : ℤ) + 1)
  (List.range (frame_idx + 1 - start_f).toNat).foldl
    (fun h k => historyUpdate h (get_frame_tracks data (start_f + (k : ℤ)))) []

/-! ## Video export pipeline (`track_utils.py` lines 265-387,
`yolo_utils.py` lines 237-308)

The video decode/encode backend is modelled by explicit data: an input
path resolves through `fs` to `none` (file absent) or a `VideoCap`
(`opened` = whether `cv2.VideoCapture` opened it; `frames` = the
sequential reads).  A function's progress callback is modelled by
returning the list of `(frame_idx, total_frames)` argument pairs of its
invocations, in order, and the writer by the list of frames written. -/

structure VideoCap where
  opened : Bool
  fps : ℚ
  width : ℤ
  height : ℤ
  frameCount : ℤ
  frames : List Image

/-- One configured ROI mask (mask_utils.py lines 73-92). -/
structure MaskCfg where
  path : String
  color : Pix
  alpha : ℚ

/-- Embedding of `get_masks_config` (mask_utils.py lines 73-92), paths
relative to the project root. -/
def get_masks_config : List (String × MaskCfg) :=
  [("floor", ⟨"assets/mask/floor_mask.png", (0, 255, 0), mkRat 3 10⟩),
   ("window", ⟨"assets/mask/window_mask.png", (255, 0, 0), mkRat 3 5⟩)]

/-- Embedding of `load_mask` (mask_utils.py lines 6-14) over an explicit
mask file system: `none` covers both a missing file and a failed
`imread`. -/
def load_mask (maskFs : String → Option Mask) (path : String) : Option Mask :=
  maskFs path

/-- ROI-mask application step of the export loop (track_utils.py lines
340-347): `frame` is rebound to the value `apply_mask_to_frame`
returns, which is the same buffer, so the frame contents after the step
are the call's `inputAfter`. -/
def roiApply (floor window : Option (Mask × MaskCfg)) (f : Image) : Image :=
  let f1 := match floor with
    | some mc => (apply_mask_to_frame f (some mc.1) mc.2.color mc.2.alpha).inputAfter
    | none => f
  match window with
  | some mc => (apply_mask_to_frame f1 (some mc.1) mc.2.color mc.2.alpha).inputAfter
  | none => f1

/-- The frame loop of `create_video_with_tracks` (track_utils.py lines
333-379), returning (progress-callback invocations, written frames). -/
def exportTracksLoop (td : Option MotData) (sd : Option ShoeData)
    (shoes : List (ℤ × ShoeInfo)) (floor window : Option (Mask × MaskCfg))
    (roi : Bool) (total : ℤ) :
    List Image → ℤ → List (ℤ × List (ℤ × ℤ)) → List (ℤ × ℤ) × List Image
  | [], _, _ => ([], [])
  | f :: rest, idx, hist =>
    let f1 := if roi then roiApply floor window f else f
    let tracks := match td with
      | some d => get_frame_tracks d idx
      | none => []
    let hist' := historyUpdate hist tracks
    let f2 := drawTracksContents f1 tracks (some hist') shoes true 2 2
    let f3 := match sd with
      | some d =>
        let ca := summarize_frame_shoes d idx
        drawShoesSummaryContents f2 ca.1 ca.2
      | none => f2
    let r := exportTracksLoop td sd shoes floor window roi total rest (idx + 1) hist'
    ((idx, total) :: r.1, f3 :: r.2)

/-- Embedding of `create_video_with_tracks` (track_utils.py lines
265-387): missing backend, missing file, or an unopened capture return
failure before any frame is processed; otherwise masks and the static
shoe map are preloaded once and the loop runs to completion. -/
def create_video_with_tracks (cv2ok : Bool) (fs : String → Option VideoCap)
    (maskFs : String → Option Mask) (video_path output_path : String)
    (tracks_data : Option MotData) (shoe_data : Option ShoeData)
    (include_roi_zones : Bool) : Bool × List (ℤ × ℤ) × List Image :=
  if ¬cv2ok then (false, [], [])
  else
    match fs video_path with
    | none => (false, [], [])
    | some cap =>
      if ¬cap.opened then (false, [], [])
      else
        let floor := if include_roi_zones then
            match get_masks_config.lookup "floor" with
            | some c => (load_mask maskFs c.path).map (fun m => (m, c))
            | none => none
          else none
        let window := if include_roi_zones then
            match get_masks_config.lookup "window" with
            | some c => (load_mask maskFs c.path).map (fun m => (m, c))
            | none => none
          else none
        let shoes := match shoe_data with
          | some sd => get_tracker_shoes_static sd
          | none => []
        let r := exportTracksLoop tracks_data shoe_data shoes floor window
          include_roi_zones cap.frameCount cap.frames 0 []
        (true, r.1, r.2)

/-- The frame loop of `create_video_with_detections` (yolo_utils.py
lines 279-298): a raised exception (from the confidence filter or the
drawing loop) aborts with failure, keeping the progress calls already
made. -/
def exportDetsLoop (dd : DetData) (mc : Option ℚ) (total : ℤ) :
    List Image → ℤ → Bool × List (ℤ × ℤ) × List Image
  | [], _ => (true, [], [])
  | f :: rest, idx =>
    match get_frame_detections dd idx mc with
    | .error _ => (false, [], [])
    | .ok detsJ =>
      match detsJ with
      | .arr dets =>
        match drawBboxesContents f dets with
        | .error _ => (false, [], [])
        | .ok out =>
          let r := exportDetsLoop dd mc total rest (idx + 1)
          (r.1, (idx, total) :: r.2.1, out :: r.2.2)
      | _ => (false, [], [])

/-- Embedding of `create_video_with_detections` (yolo_utils.py lines
237-308). -/
def create_video_with_detections (cv2ok : Bool) (fs : String → Option VideoCap)
    (video_path output_path : String) (det_data : DetData)
    (min_confidence : Option ℚ) : Bool × List (ℤ × ℤ) × List Image :=
  if ¬cv2ok then (false, [], [])
  else
    match fs video_path with
    | none => (false, [], [])
    | some cap =>
      if ¬cap.opened then (false, [], [])
      else exportDetsLoop det_data min_confidence cap.frameCount cap.frames 0

/-! ## Specification-side definitions used by the claims -/

/-- The Boolean outcome of one confidence test when it does not raise
(used to characterize the filter's successful runs). -/
def confPass (mc : ℚ) (d : Json) : Bool :=
  match pyConfTest mc d with
  | .ok b => b
  | .error _ => false

/-- Whether a detection record carries a `confidence` field (claim C9's
"detection without a confidence field" is `hasConfField d = false`). -/
def hasConfField : Json → Bool
  | .obj kvs => (dictGet "confidence" kvs).isSome
  | _ => false

/-- Drop the confidence-less detections from a `detections` list value. -/
def stripDets : Json → Json
  | .arr l => .arr (l.filter hasConfField)
  | v => v

/-- Drop the confidence-less detections from one `results` entry. -/
def stripEntry : Json → Json
  | .obj kvs => .obj (kvs.map (fun kv =>
      if kv.1 = "detections" then (kv.1, stripDets kv.2) else kv))
  | j => j

/-- Drop every confidence-less detection from a detection set. -/
def stripNoConf (data : DetData) : DetData :=
  { data with results := data.results.map stripEntry }

/-- Reference lookup written from the words of claim C7's specification:
the detections of the FIRST entry in `results` whose `frame` field
equals (Python `==`) the index, and the empty list when none matches. -/
def specFirstMatch (results : List Json) (frame_idx : ℤ) : Json :=
  match results.find? (fun item =>
    match item with
    | .obj kvs => pyEqInt ((dictGet "frame" kvs).getD .null) frame_idx
    | _ => false) with
  | some item => detectionsOf item
  | none => .arr []

/-- The stored frame number of one `results` entry, when the entry is a
dict whose `frame` field is an integer-valued number. -/
def entryFrame : Json → Option ℤ
  | .obj kvs =>
    match (dictGet "frame" kvs).getD .null with
    | .num q => if q.den = 1 then some q.num else none
    | _ => none
  | _ => none

/-- Well-formedness under which the direct-index fast path agrees with
the first-match linear scan: every entry stores an integer frame number
and no two entries store the same one. -/
def resultsWellFormed (results : List Json) : Prop :=
  (∀ item ∈ results, (entryFrame item).isSome = true) ∧ (results.map entryFrame).Nodup

/-! ## Supporting lemmas for the claims -/

theorem den_int_pos (q : ℚ) : 0 < ((q.den : ℤ)) := Int.ofNat_pos.mpr q.pos

theorem den_int_ne_zero (q : ℚ) : ((q.den : ℤ)) ≠ 0 := (den_int_pos q).ne'

theorem den_rat_pos (q : ℚ) : (0 : ℚ) < (q.den : ℚ) := by exact_mod_cast q.pos

theorem qle_iff (a b : ℚ) : qle a b = true ↔ a ≤ b := by
  rw [qle, qden, qden, decide_eq_true_iff]
  conv_rhs => rw [← Rat.num_divInt_den a, ← Rat.num_divInt_den b]
  rw [Rat.divInt_le_divInt (den_int_pos a) (den_int_pos b)]

theorem qAdd_eq (a b : ℚ) : qAdd a b = a + b := by
  rw [qAdd, qden, qden]
  conv_rhs => rw [← Rat.num_divInt_den a, ← Rat.num_divInt_den b,
    Rat.divInt_add_divInt _ _ (den_int_ne_zero a) (den_int_ne_zero b)]

theorem ratFloor_eq (q : ℚ) : ratFloor q = ⌊q⌋ := by
  rw [Rat.floor_def]; rfl

/-- The rational `q` times its denominator is its numerator. -/
theorem rat_mul_den (q : ℚ) : q * (q.den : ℚ) = (q.num : ℚ) := by
  rw [eq_comm, ← div_eq_iff ((den_rat_pos q).ne')]
  exact Rat.num_div_den q

/-- Cast identity behind the `pyRound` branch tests: the integer
`2·(num − ⌊q⌋·den)` is `2·fract(q)·den`. -/
theorem pyRound_key (q : ℚ) :
    ((2 * (q.num - ratFloor q * qden q) : ℤ) : ℚ) = 2 * (q - ((⌊q⌋ : ℤ) : ℚ)) * (q.den : ℚ) := by
  rw [ratFloor_eq, qden]
  push_cast
  linear_combination (-2 : ℚ) * rat_mul_den q

/-- `pyRound` lands within a half of its argument. -/
theorem pyRound_close (q : ℚ) : |((pyRound q : ℤ) : ℚ) - q| ≤ 1 / 2 := by
  have hd : (0 : ℚ) < (q.den : ℚ) := den_rat_pos q
  have hfloor_le : ((⌊q⌋ : ℤ) : ℚ) ≤ q := Int.floor_le q
  have hlt_floor : q < ((⌊q⌋ : ℤ) : ℚ) + 1 := Int.lt_floor_add_one q
  have hkey := pyRound_key q
  have hcden : ((qden q : ℤ) : ℚ) = (q.den : ℚ) := by rw [qden]; push_cast; rfl
  rw [pyRound]
  by_cases h1 : 2 * (q.num - ratFloor q * qden q) < qden q
  · simp only [h1, if_true]
    have hc : ((2 * (q.num - ratFloor q * qden q) : ℤ) : ℚ) < ((qden q : ℤ) : ℚ) := by
      exact_mod_cast h1
    rw [hkey, hcden] at hc
    have hlt : 2 * (q - ((⌊q⌋ : ℤ) : ℚ)) < 1 := by nlinarith
    rw [ratFloor_eq, abs_le]
    constructor <;> nlinarith
  · simp only [h1, if_false]
    by_cases h2 : qden q < 2 * (q.num - ratFloor q * qden q)
    · simp only [h2, if_true]
      have hc : ((qden q : ℤ) : ℚ) < ((2 * (q.num - ratFloor q * qden q) : ℤ) : ℚ) := by
        exact_mod_cast h2
      rw [hkey, hcden] at hc
      have hgt : 1 < 2 * (q - ((⌊q⌋ : ℤ) : ℚ)) := by nlinarith
      rw [ratFloor_eq, abs_le]
      push_cast
      constructor <;> nlinarith
    · simp only [h2, if_false]
      have heqi : 2 * (q.num - ratFloor q * qden q) = qden q := by omega
      have hc : ((2 * (q.num - ratFloor q * qden q) : ℤ) : ℚ) = ((qden q : ℤ) : ℚ) := by
        exact_mod_cast heqi
      rw [hkey, hcden] at hc
      have heq : 2 * (q - ((⌊q⌋ : ℤ) : ℚ)) = 1 := by nlinarith
      by_cases h3 : ratFloor q % 2 = 0
      · simp only [h3, if_true]
        rw [ratFloor_eq, abs_le]
        constructor <;> nlinarith
      · simp only [h3, if_false]
        rw [ratFloor_eq, abs_le]
        push_cast
        constructor <;> nlinarith

theorem dequeAppend_foldl (cap : ℕ) :
    ∀ (ps : List (ℤ × ℤ)) (acc : List (ℤ × ℤ)), acc.length ≤ cap →
      ps.foldl (dequeAppend cap) acc = (acc ++ ps).drop ((acc ++ ps).length - cap)
  | [], acc, hle => by
    simp [Nat.sub_eq_zero_of_le hle]
  | p :: ps, acc, hle => by
    rw [List.foldl_cons]
    have hstep : dequeAppend cap acc p = (acc ++ [p]).drop ((acc ++ [p]).length - cap) := rfl
    have hlen : (dequeAppend cap acc p).length ≤ cap := by
      rw [hstep, List.length_drop]
      simp only [List.length_append, List.length_singleton]
      omega
    rw [dequeAppend_foldl cap ps _ hlen, hstep]
    rw [List.length_append, List.length_drop]
    rw [← List.drop_append_of_le_length
      (show (acc ++ [p]).length - cap ≤ (acc ++ [p]).length from Nat.sub_le _ _)]
    rw [List.drop_drop]
    have harr : ((acc ++ [p]) ++ ps) = acc ++ p :: ps := by simp
    rw [harr]
    congr 1
    simp only [List.length_append, List.length_singleton, List.length_cons,
      List.length_nil, List.length_drop] at hle hlen ⊢
    omega

/-- C4: feeding more than 25 centroid points into a trail queue leaves
exactly the 25 most recent points, in arrival order (FIFO eviction). -/
theorem claim_C4 (ps : List (ℤ × ℤ)) (h : 25 < ps.length) :
    (ps.foldl (dequeAppend TRAIL_CAP) []).length = 25 ∧
    ps.foldl (dequeAppend TRAIL_CAP) [] = ps.drop (ps.length - 25) := by
  have hfold := dequeAppend_foldl TRAIL_CAP ps [] (by simp)
  simp only [List.nil_append] at hfold
  refine ⟨?_, by rw [hfold]; rfl⟩
  rw [hfold, List.length_drop]
  have : TRAIL_CAP = 25 := rfl
  omega

theorem claim_C4_witness :
    25 < ((List.range 26).map (fun i => ((i : ℤ), (i : ℤ)))).length ∧
    (((List.range 26).map (fun i => ((i : ℤ), (i : ℤ)))).foldl (dequeAppend TRAIL_CAP) []).length = 25 ∧
    ((List.range 26).map (fun i => ((i : ℤ), (i : ℤ)))).foldl (dequeAppend TRAIL_CAP) []
      = ((List.range 26).map (fun i => ((i : ℤ), (i : ℤ)))).drop
          (((List.range 26).map (fun i => ((i : ℤ), (i : ℤ)))).length - 25) :=
  ⟨by decide, claim_C4 _ (by decide)⟩

/-- C10: the identity-color function is total and symmetric under
negation — `id_color t` with the default palette is
`pleasant_palette[abs t % 10]`, and negating the id keeps the color. -/
theorem claim_C10 (t : ℤ) :
    id_color t none = pleasant_palette.getD (t.natAbs % 10) (80, 200, 120) ∧
    id_color (-t) none = id_color t none := by
  constructor
  · rfl
  · show pleasant_palette.getD ((-t).natAbs % pleasant_palette.length) (80, 200, 120)
      = pleasant_palette.getD (t.natAbs % pleasant_palette.length) (80, 200, 120)
    rw [Int.natAbs_neg]

/-- C8: exporting from a nonexistent input video fails and makes no
progress-callback invocation (and writes no frame). -/
theorem claim_C8 (cv2ok : Bool) (fs : String → Option VideoCap)
    (maskFs : String → Option Mask) (video_path output_path : String)
    (tracks_data : Option MotData) (shoe_data : Option ShoeData) (roi : Bool)
    (det_data : DetData) (mc : Option ℚ) (hfs : fs video_path = none) :
    create_video_with_tracks cv2ok fs maskFs video_path output_path
        tracks_data shoe_data roi = (false, [], []) ∧
    create_video_with_detections cv2ok fs video_path output_path det_data mc
        = (false, [], []) := by
  constructor
  · unfold create_video_with_tracks
    cases cv2ok
    · rfl
    · simp [hfs]
  · unfold create_video_with_detections
    cases cv2ok
    · rfl
    · simp [hfs]

theorem claim_C8_witness :
    ((fun _ : String => (none : Option VideoCap)) "/missing.mp4") = none ∧
    create_video_with_tracks true (fun _ => none) (fun _ => none) "/missing.mp4" "out.mp4"
        none none false = (false, [], []) ∧
    create_video_with_detections true (fun _ => none) "/missing.mp4" "out.mp4"
        ⟨none, none, []⟩ none = (false, [], []) :=
  ⟨rfl,
   (claim_C8 true (fun _ => none) (fun _ => none) "/missing.mp4" "out.mp4"
     none none false ⟨none, none, []⟩ none rfl).1,
   (claim_C8 true (fun _ => none) (fun _ => none) "/missing.mp4" "out.mp4"
     none none false ⟨none, none, []⟩ none rfl).2⟩

theorem parseMotLine_cons (f i x y w h : ℚ) (rest : List Tok) :
    parseMotLine (.num f :: .num i :: .num x :: .num y :: .num w :: .num h :: rest) =
      (motConfField rest).map (fun conf =>
        { frame := max 0 (ratTrunc f - 1)
          id := ratTrunc i
          bbox := { x1 := pyRound x, y1 := pyRound y
                    x2 := pyRound (qAdd x w), y2 := pyRound (qAdd y h) }
          conf := conf }) := by
  cases rest with
  | nil => rfl
  | cons r rs => cases r <;> rfl

/-- C5: every parsed track line stores the internal frame index
`max(0, frame - 1)`; a `frame=1` line lands on internal frame 0, a
`frame=0` line also lands on 0, and no parsed record ever has a
negative frame index. -/
theorem claim_C5 :
    (∀ (f i x y w h : ℚ) (rest : List Tok) (rec : TrackRec),
        parseMotLine (.num f :: .num i :: .num x :: .num y :: .num w :: .num h :: rest)
          = some rec → rec.frame = max 0 (ratTrunc f - 1)) ∧
    (∀ (parts : List Tok) (rec : TrackRec),
        parseMotLine parts = some rec → 0 ≤ rec.frame) ∧
    (parseMotLine [.num 1, .num 9, .num 0, .num 0, .num 4, .num 4]
      = some { frame := 0, id := 9, bbox := ⟨0, 0, 4, 4⟩, conf := none }) ∧
    (parseMotLine [.num 0, .num 9, .num 0, .num 0, .num 4, .num 4]
      = some { frame := 0, id := 9, bbox := ⟨0, 0, 4, 4⟩, conf := none }) := by
  refine ⟨?_, ?_, rfl, rfl⟩
  · intro f i x y w h rest rec hp
    rw [parseMotLine_cons] at hp
    cases hmc : motConfField rest with
    | none => rw [hmc] at hp; simp at hp
    | some c =>
      rw [hmc] at hp
      simp only [Option.map_some'] at hp
      cases hp
      rfl
  · intro parts rec hp
    match parts with
    | [] => simp [parseMotLine] at hp
    | [_] => simp [parseMotLine] at hp
    | [_, _] => simp [parseMotLine] at hp
    | [_, _, _] => simp [parseMotLine] at hp
    | [_, _, _, _] => simp [parseMotLine] at hp
    | [_, _, _, _, _] => simp [parseMotLine] at hp
    | t0 :: t1 :: t2 :: t3 :: t4 :: t5 :: rest =>
      cases t0 with
      | bad => simp [parseMotLine, tokFloat] at hp
      | num f =>
        cases t1 with
        | bad => simp [parseMotLine, tokFloat] at hp
        | num i =>
          cases t2 with
          | bad => simp [parseMotLine, tokFloat] at hp
          | num x =>
            cases t3 with
            | bad => simp [parseMotLine, tokFloat] at hp
            | num y =>
              cases t4 with
              | bad => simp [parseMotLine, tokFloat] at hp
              | num w =>
                cases t5 with
                | bad => simp [parseMotLine, tokFloat] at hp
                | num h =>
                  rw [parseMotLine_cons] at hp
                  cases hmc : motConfField rest with
                  | none => rw [hmc] at hp; simp at hp
                  | some c =>
                    rw [hmc] at hp
                    simp only [Option.map_some'] at hp
                    cases hp
                    exact le_max_left 0 _

theorem claim_C5_witness :
    parseMotLine [.num 5, .num 3, .num 0, .num 0, .num 4, .num 4]
      = some { frame := 4, id := 3, bbox := ⟨0, 0, 4, 4⟩, conf := none } ∧
    ({ frame := 4, id := 3, bbox := ⟨0, 0, 4, 4⟩, conf := none } : TrackRec).frame
      = max 0 (ratTrunc 5 - 1) ∧
    0 ≤ ({ frame := 4, id := 3, bbox := ⟨0, 0, 4, 4⟩, conf := none } : TrackRec).frame :=
  ⟨rfl,
   claim_C5.1 5 3 0 0 4 4 [] _ rfl,
   claim_C5.2.1 [.num 5, .num 3, .num 0, .num 0, .num 4, .num 4] _ rfl⟩

/-- Rounding a sum lands within one pixel of the sum of the roundings. -/
theorem pyRound_add_sub (x w : ℚ) :
    |pyRound (qAdd x w) - pyRound x - pyRound w| ≤ 1 := by
  rw [qAdd_eq]
  obtain ⟨h1a, h1b⟩ := abs_le.mp (pyRound_close (x + w))
  obtain ⟨h2a, h2b⟩ := abs_le.mp (pyRound_close x)
  obtain ⟨h3a, h3b⟩ := abs_le.mp (pyRound_close w)
  rw [abs_le]
  constructor
  · by_contra hc
    push_neg at hc
    have hle : (pyRound (x + w) - pyRound x - pyRound w : ℤ) ≤ -2 := by omega
    have hq : ((pyRound (x + w) - pyRound x - pyRound w : ℤ) : ℚ) ≤ -2 := by exact_mod_cast hle
    push_cast at hq
    linarith
  · by_contra hc
    push_neg at hc
    have hle : (2 : ℤ) ≤ pyRound (x + w) - pyRound x - pyRound w := by omega
    have hq : (2 : ℚ) ≤ ((pyRound (x + w) - pyRound x - pyRound w : ℤ) : ℚ) := by exact_mod_cast hle
    push_cast at hq
    linarith

/-- C2 counterexample: the line `1, 7, 0.5, 0, 0.5, 0.5` parses to the
bbox `(0, 0, 1, 0)`, and `x2 - x1 = 1` while `round(w) = round(0.5) = 0`
— the claimed equality `x2 - x1 == round(w)` fails. -/
theorem claim_C2_counterexample :
    parseMotLine [.num 1, .num 7, .num (mkRat 1 2), .num 0,
        .num (mkRat 1 2), .num (mkRat 1 2)]
      = some { frame := 0, id := 7, bbox := ⟨0, 0, 1, 0⟩, conf := none } ∧
    ¬ (((1 : ℤ) - 0) = pyRound (mkRat 1 2)) :=
  ⟨rfl, by decide⟩

/-- C2 amended: for a track line with `w, h ≥ 0`, the parsed record's
box sides agree with `round(w)` / `round(h)` up to one pixel of integer
rounding: `|x2 - x1 - round(w)| ≤ 1` and `|y2 - y1 - round(h)| ≤ 1`. -/
theorem claim_C2_amended (f i x y w h : ℚ) (rest : List Tok) (rec : TrackRec)
    (hw : 0 ≤ w) (hh : 0 ≤ h)
    (hp : parseMotLine (.num f :: .num i :: .num x :: .num y :: .num w :: .num h :: rest)
      = some rec) :
    |rec.bbox.x2 - rec.bbox.x1 - pyRound w| ≤ 1 ∧
    |rec.bbox.y2 - rec.bbox.y1 - pyRound h| ≤ 1 := by
  rw [parseMotLine_cons] at hp
  cases hmc : motConfField rest with
  | none => rw [hmc] at hp; simp at hp
  | some c =>
    rw [hmc] at hp
    simp only [Option.map_some'] at hp
    cases hp
    exact ⟨pyRound_add_sub x w, pyRound_add_sub y h⟩

theorem claim_C2_amended_witness :
    (0 : ℚ) ≤ 2 ∧
    parseMotLine [.num 1, .num 7, .num 0, .num 0, .num 2, .num 2]
      = some { frame := 0, id := 7, bbox := ⟨0, 0, 2, 2⟩, conf := none } ∧
    |({ frame := 0, id := 7, bbox := ⟨0, 0, 2, 2⟩, conf := none } : TrackRec).bbox.x2
      - ({ frame := 0, id := 7, bbox := ⟨0, 0, 2, 2⟩, conf := none } : TrackRec).bbox.x1
      - pyRound 2| ≤ 1 ∧
    |({ frame := 0, id := 7, bbox := ⟨0, 0, 2, 2⟩, conf := none } : TrackRec).bbox.y2
      - ({ frame := 0, id := 7, bbox := ⟨0, 0, 2, 2⟩, conf := none } : TrackRec).bbox.y1
      - pyRound 2| ≤ 1 :=
  ⟨zero_le_two, rfl,
   (claim_C2_amended 1 7 0 0 2 2 [] _ zero_le_two zero_le_two rfl).1,
   (claim_C2_amended 1 7 0 0 2 2 [] _ zero_le_two zero_le_two rfl).2⟩

/-- C1 counterexample: a present file whose content is the valid JSON
document `[1]` (truthy, not an object) makes `load_shoe_labels` raise
`AttributeError` at `(raw or {}).items()` — an exception escapes to the
caller instead of the empty structure being returned. -/
theorem claim_C1_counterexample :
    load_shoe_labels "shoes.json" (some (.ok (.arr [.num 1]))) = .error () := rfl

/-- C1 amended: `load_detections` returns the empty structure and never
raises when the file is absent or the read/JSON parse raises;
`load_mot_tracks` never raises, returning the records of the lines
parsed before any mid-file exception (so the empty structure exactly
when the file is absent or the exception precedes every line); and
`load_shoe_labels` returns the empty structure when the file is absent
or the read/JSON parse raises, returns without raising exactly when the
parsed document is falsy or an object, and raises (`AttributeError`) on
a truthy non-object document. -/
theorem claim_C1_amended :
    (load_detections none = emptyDetData) ∧
    (load_detections (some (.error ())) = emptyDetData) ∧
    (∀ src, load_mot_tracks src none = { tracks := [], source := src }) ∧
    (∀ src lines err, load_mot_tracks src (some (lines, err))
      = { tracks := lines.filterMap parseMotLine, source := src }) ∧
    (∀ src, load_shoe_labels src none = .ok { labels := [], source := src }) ∧
    (∀ src, load_shoe_labels src (some (.error ()))
      = .ok { labels := [], source := src }) ∧
    (∀ src j, (load_shoe_labels src (some (.ok j))).isOk
      = (!jsonTruthy j || j.isObj)) := by
  refine ⟨rfl, rfl, fun _ => rfl, fun _ _ _ => rfl, fun _ => rfl, fun _ => rfl, ?_⟩
  intro src j
  cases j with
  | null => rfl
  | bool b => cases b <;> rfl
  | num q =>
    show (if jsonTruthy (.num q) then Except.error () else _).isOk = _
    by_cases hq : jsonTruthy (Json.num q) = true
    · rw [if_pos hq, hq]; rfl
    · rw [if_neg (by simp [hq])]
      simp only [Bool.not_eq_true] at hq
      rw [hq]; rfl
  | str s =>
    show (if jsonTruthy (.str s) then Except.error () else _).isOk = _
    by_cases hs : jsonTruthy (Json.str s) = true
    · rw [if_pos hs, hs]; rfl
    · rw [if_neg (by simp [hs])]
      simp [Bool.not_eq_true] at hs
      rw [hs]; rfl
  | arr xs => cases xs <;> rfl
  | obj kvs => cases kvs <;> rfl

/-- C3 counterexample: blending a 1×1 all-alpha gray mask with color
(200, 0, 0) at opacity 0.5 over the black 1×1 frame hands back the
input buffer itself (`.sameAsInput`, no new buffer) with its contents
overwritten in place to (100, 0, 0) — refuting both halves of the
claim for `apply_mask_to_frame`. -/
theorem claim_C3_counterexample :
    (apply_mask_to_frame [[(0, 0, 0)]] (some (.gray [[255]])) (200, 0, 0) (mkRat 1 2)).ret
        = RasterRet.sameAsInput ∧
    ¬ ((apply_mask_to_frame [[(0, 0, 0)]] (some (.gray [[255]])) (200, 0, 0)
        (mkRat 1 2)).inputAfter = [[(0, 0, 0)]]) :=
  ⟨rfl, by decide⟩

/-- C3 amended: with the drawing backend available,
`draw_bboxes_on_image` and `draw_tracks_on_image` leave the input
buffer unchanged and never return it (they return a fresh copy — or,
for `draw_bboxes_on_image` on malformed detections, raise without
returning a buffer); `apply_mask_to_frame` always returns the input
buffer itself, with contents unchanged when the mask is missing (and
mutated in place by the blend otherwise). -/
theorem claim_C3_amended :
    (∀ (img : Image) (dets : List Json) (r : RasterResult),
        draw_bboxes_on_image true (some img) dets = some r →
        r.inputAfter = img ∧ r.ret ≠ RasterRet.sameAsInput) ∧
    (∀ (img : Image) (tracks : List TrackRec)
        (hist : Option (List (ℤ × List (ℤ × ℤ)))) (shoes : List (ℤ × ShoeInfo))
        (st : Bool) (si : ℕ) (tt : ℤ) (r : RasterResult),
        draw_tracks_on_image true (some img) tracks hist shoes st si tt = some r →
        r.inputAfter = img ∧
        r.ret = RasterRet.fresh (drawTracksContents img tracks hist shoes st si tt)) ∧
    (∀ (frame : Image) (mask : Option Mask) (color : Pix) (alpha : ℚ),
        (apply_mask_to_frame frame mask color alpha).ret = RasterRet.sameAsInput) ∧
    (∀ (frame : Image) (color : Pix) (alpha : ℚ),
        (apply_mask_to_frame frame none color alpha).inputAfter = frame) := by
  refine ⟨?_, ?_, ?_, fun _ _ _ => rfl⟩
  · intro img dets r hr
    rw [draw_bboxes_on_image] at hr
    cases hdc : drawBboxesContents img dets with
    | ok out =>
      rw [if_pos rfl, hdc] at hr
      cases hr
      exact ⟨rfl, by simp⟩
    | error e =>
      rw [if_pos rfl, hdc] at hr
      cases hr
      exact ⟨rfl, by simp⟩
  · intro img tracks hist shoes st si tt r hr
    rw [draw_tracks_on_image, if_pos rfl] at hr
    cases hr
    exact ⟨rfl, rfl⟩
  · intro frame mask color alpha
    cases mask with
    | none => rfl
    | some m =>
      show (match maskToRGBA m with
            | none => (⟨.sameAsInput, frame⟩ : RasterResult)
            | some m4 => _).ret = RasterRet.sameAsInput
      cases maskToRGBA m <;> rfl

theorem claim_C3_amended_witness :
    draw_bboxes_on_image true (some [[(7, 7, 7)]]) []
      = some ⟨RasterRet.fresh [[(7, 7, 7)]], [[(7, 7, 7)]]⟩ ∧
    draw_tracks_on_image true (some [[(7, 7, 7)]]) [] none [] true 2 2
      = some ⟨RasterRet.fresh [[(7, 7, 7)]], [[(7, 7, 7)]]⟩ ∧
    (⟨RasterRet.fresh [[(7, 7, 7)]], [[(7, 7, 7)]]⟩ : RasterResult).inputAfter
      = [[(7, 7, 7)]] ∧
    (⟨RasterRet.fresh [[(7, 7, 7)]], [[(7, 7, 7)]]⟩ : RasterResult).ret
      ≠ RasterRet.sameAsInput ∧
    (apply_mask_to_frame [[(7, 7, 7)]] none (0, 0, 0) (mkRat 1 2)).ret
      = RasterRet.sameAsInput :=
  ⟨rfl, rfl,
   (claim_C3_amended.1 [[(7, 7, 7)]] [] _ rfl).1,
   (claim_C3_amended.1 [[(7, 7, 7)]] [] _ rfl).2,
   claim_C3_amended.2.2.1 [[(7, 7, 7)]] none (0, 0, 0) (mkRat 1 2)⟩

/-! ## Confidence-filter lemmas (claims C6 and C9) -/

theorem pyConfFilterList_ok (mc : ℚ) :
    ∀ (m l : List Json), pyConfFilterList mc m = .ok l →
      (∀ d ∈ m, (pyConfTest mc d).isOk = true) ∧ l = m.filter (confPass mc)
  | [], l, h => by
    cases h
    exact ⟨by simp, rfl⟩
  | d :: ds, l, h => by
    cases ht : pyConfTest mc d with
    | error e => rw [pyConfFilterList, ht] at h; cases h
    | ok b =>
      rw [pyConfFilterList, ht] at h
      cases hr : pyConfFilterList mc ds with
      | error e => rw [hr] at h; cases h
      | ok rest =>
        rw [hr] at h
        obtain ⟨hmem, hfil⟩ := pyConfFilterList_ok mc ds rest hr
        cases h
        constructor
        · intro d' hd'
          rcases List.mem_cons.mp hd' with hd' | hd'
          · subst hd'; rw [ht]; rfl
          · exact hmem d' hd'
        · rw [List.filter_cons]
          have hcp : confPass mc d = b := by rw [confPass, ht]
          rw [hcp, hfil]

theorem pyConfFilterList_of_all_ok (mc : ℚ) :
    ∀ (m : List Json), (∀ d ∈ m, (pyConfTest mc d).isOk = true) →
      pyConfFilterList mc m = .ok (m.filter (confPass mc))
  | [], _ => rfl
  | d :: ds, hall => by
    have hd := hall d (by simp)
    cases ht : pyConfTest mc d with
    | error e => rw [ht] at hd; cases hd
    | ok b =>
      rw [pyConfFilterList, ht,
        pyConfFilterList_of_all_ok mc ds (fun x hx => hall x (by simp [hx]))]
      have hcp : confPass mc d = b := by rw [confPass, ht]
      rw [List.filter_cons, hcp]
      cases b <;> rfl

/-- Whether the confidence test raises is independent of the threshold. -/
theorem pyConfTest_isOk_congr (t1 t2 : ℚ) (d : Json) :
    (pyConfTest t1 d).isOk = (pyConfTest t2 d).isOk := by
  cases d with
  | obj kvs =>
    cases hv : (dictGet "confidence" kvs).getD (.num 0) <;>
      simp only [pyConfTest, hv] <;> rfl
  | null => rfl
  | bool b => rfl
  | num q => rfl
  | str s => rfl
  | arr xs => rfl

/-- Raising the threshold only removes detections from the filter. -/
theorem confPass_mono (t1 t2 : ℚ) (hle : t1 ≤ t2) (d : Json)
    (h : confPass t2 d = true) : confPass t1 d = true := by
  cases d with
  | obj kvs =>
    unfold confPass pyConfTest at h ⊢
    cases hv : (dictGet "confidence" kvs).getD (.num 0) <;> simp only [hv] at h ⊢ <;>
      first
      | exact h
      | exact (qle_iff t1 _).mpr (le_trans hle ((qle_iff t2 _).mp h))
  | null => simp [confPass, pyConfTest] at h
  | bool b => simp [confPass, pyConfTest] at h
  | num q => simp [confPass, pyConfTest] at h
  | str s => simp [confPass, pyConfTest] at h
  | arr xs => simp [confPass, pyConfTest] at h

theorem filter_length_mono {α : Type} (p q : α → Bool)
    (himp : ∀ a, p a = true → q a = true) :
    ∀ l : List α, (l.filter p).length ≤ (l.filter q).length
  | [] => Nat.le_refl 0
  | a :: l => by
    rw [List.filter_cons, List.filter_cons]
    cases hp : p a with
    | true =>
      rw [himp a hp]
      exact Nat.succ_le_succ (filter_length_mono p q himp l)
    | false =>
      cases q a with
      | true => exact Nat.le_succ_of_le (filter_length_mono p q himp l)
      | false => exact filter_length_mono p q himp l

/-- C6: confidence filtering is antitone in the threshold — with
`t1 ≤ t2`, the detections list returned for threshold `t2` is never
longer than the one returned for `t1`. -/
theorem claim_C6 (data : DetData) (idx : ℤ) (t1 t2 : ℚ) (hle : t1 ≤ t2)
    (l1 l2 : List Json)
    (h1 : get_frame_detections data idx (some t1) = .ok (.arr l1))
    (h2 : get_frame_detections data idx (some t2) = .ok (.arr l2)) :
    l2.length ≤ l1.length := by
  simp only [get_frame_detections] at h1 h2
  by_cases htr : jsonTruthy (gfdLookup data.results idx) = true
  · rw [if_pos htr] at h1 h2
    cases hD : gfdLookup data.results idx with
    | arr m =>
      simp only [hD] at h1 h2
      cases hf1 : pyConfFilterList t1 m with
      | error e => rw [hf1] at h1; simp [Except.map] at h1
      | ok r1 =>
        cases hf2 : pyConfFilterList t2 m with
        | error e => rw [hf2] at h2; simp [Except.map] at h2
        | ok r2 =>
          rw [hf1] at h1
          rw [hf2] at h2
          simp only [Except.map] at h1 h2
          have hr1 : r1 = l1 := by
            injection h1 with h1'
            injection h1'
          have hr2 : r2 = l2 := by
            injection h2 with h2'
            injection h2'
          obtain ⟨_, hfil1⟩ := pyConfFilterList_ok t1 m r1 hf1
          obtain ⟨_, hfil2⟩ := pyConfFilterList_ok t2 m r2 hf2
          rw [← hr1, ← hr2, hfil1, hfil2]
          exact filter_length_mono (confPass t2) (confPass t1)
            (fun a ha => confPass_mono t1 t2 hle a ha) m
    | null => simp only [hD] at h1; simp at h1
    | bool b => simp only [hD] at h1; simp at h1
    | num q => simp only [hD] at h1; simp at h1
    | str s => simp only [hD] at h1; simp at h1
    | obj kvs => simp only [hD] at h1; simp at h1
  · rw [if_neg htr] at h1 h2
    have hD1 : gfdLookup data.results idx = .arr l1 := by injection h1
    have hD2 : gfdLookup data.results idx = .arr l2 := by injection h2
    have : l1 = l2 := by
      rw [hD1] at hD2
      injection hD2
    rw [this]

theorem claim_C6_witness :
    (0 : ℚ) ≤ 1 ∧
    get_frame_detections
        ⟨none, none, [Json.obj [("frame", Json.num 0),
          ("detections", Json.arr [Json.obj [("confidence", Json.num (mkRat 1 2))]])]]⟩
        0 (some 0)
      = .ok (.arr [Json.obj [("confidence", Json.num (mkRat 1 2))]]) ∧
    get_frame_detections
        ⟨none, none, [Json.obj [("frame", Json.num 0),
          ("detections", Json.arr [Json.obj [("confidence", Json.num (mkRat 1 2))]])]]⟩
        0 (some 1)
      = .ok (.arr []) ∧
    ([] : List Json).length ≤ [Json.obj [("confidence", Json.num (mkRat 1 2))]].length :=
  ⟨zero_le_one, rfl, rfl,
   claim_C6 ⟨none, none, [Json.obj [("frame", Json.num 0),
       ("detections", Json.arr [Json.obj [("confidence", Json.num (mkRat 1 2))]])]]⟩
     0 0 1 zero_le_one _ _ rfl rfl⟩

/-- With a positive threshold, the default confidence 0.0 never passes. -/
theorem qle_pos_zero_false (mc : ℚ) (h0 : 0 < mc) : qle mc 0 = false := by
  cases hb : qle mc 0 with
  | false => rfl
  | true => exact absurd ((qle_iff mc 0).mp hb) (not_le.mpr h0)

/-- A detection that passes a positive confidence threshold carries a
`confidence` field. -/
theorem confPass_true_hasConf (mc : ℚ) (h0 : 0 < mc) (d : Json)
    (h : confPass mc d = true) : hasConfField d = true := by
  cases d with
  | obj kvs =>
    cases hv : dictGet "confidence" kvs with
    | none =>
      exfalso
      unfold confPass pyConfTest at h
      simp only [hv, Option.getD_none] at h
      rw [qle_pos_zero_false mc h0] at h
      cases h
    | some v => simp [hasConfField, hv]
  | null => simp [confPass, pyConfTest] at h
  | bool b => simp [confPass, pyConfTest] at h
  | num q => simp [confPass, pyConfTest] at h
  | str s => simp [confPass, pyConfTest] at h
  | arr xs => simp [confPass, pyConfTest] at h

theorem dictGet_stripEntry (kvs : List (String × Json)) :
    dictGet "detections" (kvs.map (fun kv =>
      if kv.1 = "detections" then (kv.1, stripDets kv.2) else kv))
      = (dictGet "detections" kvs).map stripDets := by
  induction kvs with
  | nil => rfl
  | cons kv rest ih =>
    obtain ⟨k, v⟩ := kv
    by_cases hk : k = "detections"
    · subst hk
      simp [dictGet, ih]
    · rw [List.map_cons]
      rw [show ((if (k, v).1 = "detections" then ((k, v).1, stripDets (k, v).2)
          else ((k, v) : String × Json))) = (k, v) from by rw [if_neg hk]]
      show (if k = "detections" then some v
            else dictGet "detections" (List.map (fun kv =>
              if kv.1 = "detections" then (kv.1, stripDets kv.2) else kv) rest))
        = Option.map stripDets (dictGet "detections" ((k, v) :: rest))
      rw [if_neg hk, ih]
      show _ = Option.map stripDets (if k = "detections" then some v else dictGet "detections" rest)
      rw [if_neg hk]

/-- A filter run that succeeded is unchanged by first dropping the
confidence-less detections (positive threshold). -/
theorem pyConfFilterList_strip (mc : ℚ) (h0 : 0 < mc) :
    ∀ (l l' : List Json), pyConfFilterList mc l = .ok l' →
      pyConfFilterList mc (l.filter hasConfField) = .ok l'
  | [], l', h => h
  | d :: ds, l', h => by
    cases ht : pyConfTest mc d with
    | error e => rw [pyConfFilterList, ht] at h; cases h
    | ok b =>
      rw [pyConfFilterList, ht] at h
      cases hr : pyConfFilterList mc ds with
      | error e => rw [hr] at h; cases h
      | ok r =>
        rw [hr] at h
        cases hcf : hasConfField d with
        | true =>
          rw [List.filter_cons, hcf, if_pos rfl, pyConfFilterList, ht,
            pyConfFilterList_strip mc h0 ds r hr]
          exact h
        | false =>
          have hb : b = false := by
            cases d with
            | obj kvs =>
              cases hv : dictGet "confidence" kvs with
              | none =>
                unfold pyConfTest at ht
                simp only [hv, Option.getD_none] at ht
                rw [qle_pos_zero_false mc h0] at ht
                injection ht with ht'
                exact ht'.symm
              | some v => rw [hasConfField, hv] at hcf; cases hcf
            | null => cases ht
            | bool bb => cases ht
            | num q => cases ht
            | str s => cases ht
            | arr xs => cases ht
          subst hb
          rw [List.filter_cons, hcf]
          simp only [Bool.false_eq_true, if_false] at h ⊢
          rw [pyConfFilterList_strip mc h0 ds r hr]
          exact h

/-- Dropping confidence-less detections changes no per-frame tally of a
successful `compute_avg_detections` accumulation (positive threshold). -/
theorem avgLoop_strip (mc : ℚ) (h0 : 0 < mc) :
    ∀ (rs : List Json) (tc : ℕ × ℕ), avgLoop (some mc) rs = .ok tc →
      avgLoop (some mc) (rs.map stripEntry) = .ok tc
  | [], tc, h => h
  | item :: rest, tc, h => by
    cases item with
    | obj kvs =>
      simp only [List.map_cons]
      rw [show stripEntry (.obj kvs) = .obj (kvs.map (fun kv =>
        if kv.1 = "detections" then (kv.1, stripDets kv.2) else kv)) from rfl]
      rw [avgLoop] at h ⊢
      rw [dictGet_stripEntry]
      cases hv : dictGet "detections" kvs with
      | none =>
        simp only [hv, Option.map_none', Option.getD_none] at h ⊢
        cases hr : avgLoop (some mc) rest with
        | error e => rw [hr] at h; cases h
        | ok tc' =>
          rw [hr] at h
          rw [avgLoop_strip mc h0 rest tc' hr]
          exact h
      | some v =>
        simp only [hv, Option.map_some', Option.getD_some] at h ⊢
        cases v with
        | arr l =>
          rw [show stripDets (.arr l) = .arr (l.filter hasConfField) from rfl]
          simp only at h ⊢
          cases hf : pyConfFilterList mc l with
          | error e => rw [hf] at h; cases h
          | ok l' =>
            rw [hf] at h
            rw [pyConfFilterList_strip mc h0 l l' hf]
            cases hr : avgLoop (some mc) rest with
            | error e => rw [hr] at h; cases h
            | ok tc' =>
              rw [hr] at h
              rw [avgLoop_strip mc h0 rest tc' hr]
              exact h
        | null => exact avgLoop_strip mc h0 rest tc h
        | bool b => exact avgLoop_strip mc h0 rest tc h
        | num q => exact avgLoop_strip mc h0 rest tc h
        | str s => exact avgLoop_strip mc h0 rest tc h
        | obj o => exact avgLoop_strip mc h0 rest tc h
    | null => exact avgLoop_strip mc h0 rest tc h
    | bool b => exact avgLoop_strip mc h0 rest tc h
    | num q => exact avgLoop_strip mc h0 rest tc h
    | str s => exact avgLoop_strip mc h0 rest tc h
    | arr xs => exact avgLoop_strip mc h0 rest tc h

/-- C9: a detection record without a `confidence` field is treated as
confidence 0.0 — with a positive threshold it never appears in
`get_frame_detections` output and never changes
`compute_avg_detections` (removing all such records preserves the
result), while with `min_confidence = None` the lookup's raw value is
returned unfiltered (so such records are included). -/
theorem claim_C9 :
    (∀ (data : DetData) (idx : ℤ) (mc : ℚ) (l : List Json), 0 < mc →
        get_frame_detections data idx (some mc) = .ok (.arr l) →
        ∀ d ∈ l, hasConfField d = true) ∧
    (∀ (data : DetData) (mc : ℚ) (v : ℚ), 0 < mc →
        compute_avg_detections data (some mc) = .ok v →
        compute_avg_detections (stripNoConf data) (some mc) = .ok v) ∧
    (∀ (data : DetData) (idx : ℤ),
        get_frame_detections data idx none = .ok (gfdLookup data.results idx)) := by
  refine ⟨?_, ?_, fun _ _ => rfl⟩
  · intro data idx mc l h0 hg d hd
    simp only [get_frame_detections] at hg
    by_cases htr : jsonTruthy (gfdLookup data.results idx) = true
    · rw [if_pos htr] at hg
      cases hD : gfdLookup data.results idx with
      | arr m =>
        simp only [hD] at hg
        cases hf : pyConfFilterList mc m with
        | error e => rw [hf] at hg; simp [Except.map] at hg
        | ok r =>
          rw [hf] at hg
          simp only [Except.map] at hg
          have hr : r = l := by
            injection hg with hg'
            injection hg'
          obtain ⟨_, hfil⟩ := pyConfFilterList_ok mc m r hf
          subst hr
          subst hfil
          exact confPass_true_hasConf mc h0 d (List.of_mem_filter hd)
      | null => simp only [hD] at hg; simp at hg
      | bool b => simp only [hD] at hg; simp at hg
      | num q => simp only [hD] at hg; simp at hg
      | str s => simp only [hD] at hg; simp at hg
      | obj kvs => simp only [hD] at hg; simp at hg
    · rw [if_neg htr] at hg
      have hD : gfdLookup data.results idx = .arr l := by injection hg
      rw [hD] at htr
      have : l = [] := by
        cases l with
        | nil => rfl
        | cons a as => exact absurd (by simp [jsonTruthy] : jsonTruthy (.arr (a :: as)) = true) htr
      subst this
      cases hd
  · intro data mc v h0 hc
    rw [compute_avg_detections] at hc ⊢
    cases hres : data.results with
    | nil =>
      rw [hres] at hc
      have hsr : (stripNoConf data).results = [] := by rw [stripNoConf, hres]; rfl
      rw [hsr]
      exact hc
    | cons r rs =>
      rw [hres] at hc
      have hne : ((r :: rs).map stripEntry).isEmpty = false := by simp
      show (if ((stripNoConf data).results).isEmpty then Except.ok 0
            else _) = Except.ok v
      have hsr : (stripNoConf data).results = (r :: rs).map stripEntry := by
        rw [stripNoConf, hres]
      rw [hsr, hne]
      simp only [List.isEmpty_cons, Bool.false_eq_true, if_false] at hc
      simp only [Bool.false_eq_true, if_false]
      cases ha : avgLoop (some mc) (r :: rs) with
      | error e => rw [ha] at hc; cases hc
      | ok tc =>
        rw [ha] at hc
        rw [avgLoop_strip mc h0 (r :: rs) tc ha]
        exact hc

theorem claim_C9_witness :
    (0 : ℚ) < 1 ∧
    get_frame_detections
        ⟨none, none, [Json.obj [("frame", Json.num 0),
          ("detections", Json.arr [Json.obj [("confidence", Json.num 1)]])]]⟩
        0 (some 1)
      = .ok (.arr [Json.obj [("confidence", Json.num 1)]]) ∧
    hasConfField (Json.obj [("confidence", Json.num 1)]) = true ∧
    compute_avg_detections
        ⟨none, none, [Json.obj [("frame", Json.num 0),
          ("detections", Json.arr [Json.obj [("confidence", Json.num 1)]])]]⟩
        (some 1) = .ok 1 ∧
    compute_avg_detections
        (stripNoConf ⟨none, none, [Json.obj [("frame", Json.num 0),
          ("detections", Json.arr [Json.obj [("confidence", Json.num 1)]])]]⟩)
        (some 1) = .ok 1 ∧
    get_frame_detections ⟨none, none, []⟩ 0 none
      = .ok (gfdLookup ([] : List Json) 0) :=
  ⟨zero_lt_one, rfl,
   claim_C9.1 ⟨none, none, [Json.obj [("frame", Json.num 0),
       ("detections", Json.arr [Json.obj [("confidence", Json.num 1)]])]]⟩
     0 1 [Json.obj [("confidence", Json.num 1)]] zero_lt_one rfl
     (Json.obj [("confidence", Json.num 1)]) (List.mem_singleton.mpr rfl),
   rfl,
   claim_C9.2.1 ⟨none, none, [Json.obj [("frame", Json.num 0),
       ("detections", Json.arr [Json.obj [("confidence", Json.num 1)]])]]⟩
     1 1 zero_lt_one rfl,
   claim_C9.2.2 ⟨none, none, []⟩ 0⟩

/-- C7 counterexample: with two entries both storing frame 1, the O(1)
fast path returns the detections of `results[1]` (the empty list), while
the reference first-match linear scan returns the detections of the
first matching entry (`[null]`) — the two disagree. -/
theorem claim_C7_counterexample :
    get_frame_detections
        ⟨none, none,
         [Json.obj [("frame", Json.num 1), ("detections", Json.arr [Json.null])],
          Json.obj [("frame", Json.num 1), ("detections", Json.arr [])]]⟩ 1 none
      = .ok (.arr []) ∧
    specFirstMatch
        [Json.obj [("frame", Json.num 1), ("detections", Json.arr [Json.null])],
         Json.obj [("frame", Json.num 1), ("detections", Json.arr [])]] 1
      = .arr [Json.null] ∧
    Json.arr ([] : List Json) ≠ Json.arr [Json.null] :=
  ⟨rfl, rfl, by simp⟩

/-- A rational with denominator 1 truncates to its numerator. -/
theorem ratTrunc_int (q : ℚ) (h : q.den = 1) : ratTrunc q = q.num := by
  rw [ratTrunc, qden, h, Nat.cast_one]
  by_cases h0 : 0 ≤ q.num
  · rw [if_pos h0]
    show q.num / 1 = q.num
    omega
  · rw [if_neg h0]
    show -(-q.num / 1) = q.num
    omega

/-- Characterization of an entry with a stored integer frame number. -/
theorem entryFrame_char (item : Json) (k : ℤ) (h : entryFrame item = some k) :
    ∃ kvs q, item = .obj kvs ∧ (dictGet "frame" kvs).getD .null = .num q ∧
      q.den = 1 ∧ q.num = k := by
  cases item with
  | obj kvs =>
    cases hv : (dictGet "frame" kvs).getD .null with
    | num q =>
      simp only [entryFrame, hv] at h
      by_cases hden : q.den = 1
      · rw [if_pos hden] at h
        injection h with h'
        exact ⟨kvs, q, rfl, hv, hden, h'⟩
      · rw [if_neg hden] at h; cases h
    | null => simp [entryFrame, hv] at h
    | bool b => simp [entryFrame, hv] at h
    | str s => simp [entryFrame, hv] at h
    | arr xs => simp [entryFrame, hv] at h
    | obj o => simp [entryFrame, hv] at h
  | null => cases h
  | bool b => cases h
  | num q => cases h
  | str s => cases h
  | arr xs => cases h

/-- On well-formed results the linear-scan fallback agrees with the
reference first-match scan. -/
theorem gfdScan_eq_spec (idx : ℤ) :
    ∀ results : List Json, (∀ item ∈ results, (entryFrame item).isSome = true) →
      gfdScan idx results = specFirstMatch results idx
  | [], _ => rfl
  | item :: rest, hall => by
    obtain ⟨k, hk⟩ := Option.isSome_iff_exists.mp (hall item (by simp))
    obtain ⟨kvs, q, hobj, hv, hden, hnum⟩ := entryFrame_char item k hk
    subst hobj
    have hrest : ∀ it ∈ rest, (entryFrame it).isSome = true :=
      fun it hit => hall it (by simp [hit])
    rw [gfdScan, hv]
    simp only [pyInt]
    rw [ratTrunc_int q hden]
    by_cases hqi : q.num = idx
    · rw [if_pos hqi, specFirstMatch,
        List.find?_cons_of_pos _ (by
          show pyEqInt ((dictGet "frame" kvs).getD .null) idx = true
          rw [hv]
          show decide (q.den = 1 ∧ q.num = idx) = true
          simp [hden, hqi])]
    · rw [if_neg hqi, specFirstMatch,
        List.find?_cons_of_neg _ (by
          show ¬ pyEqInt ((dictGet "frame" kvs).getD .null) idx = true
          rw [hv]
          show ¬ decide (q.den = 1 ∧ q.num = idx) = true
          simp [hqi])]
      rw [gfdScan_eq_spec idx rest hrest, specFirstMatch]

/-- On duplicate-free well-formed results, when position `n` stores
frame `idx` the scan returns exactly that entry's detections. -/
theorem gfdScan_get (idx : ℤ) :
    ∀ (results : List Json) (n : ℕ) (hlt : n < results.length),
      (∀ item ∈ results, (entryFrame item).isSome = true) →
      (results.map entryFrame).Nodup →
      entryFrame (results.get ⟨n, hlt⟩) = some idx →
      gfdScan idx results = detectionsOf (results.get ⟨n, hlt⟩)
  | item :: rest, 0, hlt, hall, hnd, hfr => by
    obtain ⟨kvs, q, hobj, hv, hden, hnum⟩ := entryFrame_char item idx hfr
    show gfdScan idx (item :: rest) = detectionsOf item
    subst hobj
    rw [gfdScan, hv]
    simp only [pyInt]
    rw [ratTrunc_int q hden, if_pos hnum]
  | item :: rest, n + 1, hlt, hall, hnd, hfr => by
    obtain ⟨k, hk⟩ := Option.isSome_iff_exists.mp (hall item (by simp))
    obtain ⟨kvs, q, hobj, hv, hden, hnum⟩ := entryFrame_char item k hk
    have hget : (item :: rest).get ⟨n + 1, hlt⟩ = rest.get ⟨n, Nat.lt_of_succ_lt_succ hlt⟩ := rfl
    rw [hget] at hfr ⊢
    have hne : k ≠ idx := by
      intro hkidx
      subst hkidx
      rw [List.map_cons] at hnd
      have hmem : entryFrame (rest.get ⟨n, Nat.lt_of_succ_lt_succ hlt⟩) ∈ rest.map entryFrame :=
        List.mem_map_of_mem entryFrame (List.get_mem rest _ _)
    -- the head's frame equals the one at position n, contradicting Nodup
      rw [hfr, ← hk] at hmem
      exact (List.nodup_cons.mp hnd).1 hmem
    subst hobj
    rw [gfdScan, hv]
    simp only [pyInt]
    rw [ratTrunc_int q hden, hnum, if_neg hne]
    exact gfdScan_get idx rest n (Nat.lt_of_succ_lt_succ hlt)
      (fun it hit => hall it (by simp [hit]))
      (List.nodup_cons.mp (by rw [List.map_cons] at hnd; exact hnd)).2 hfr

/-- C7 amended: on a detection set whose `results` entries all store
integer frame numbers, no two alike, `get_frame_detections` (without
confidence filtering) returns exactly what the reference first-match
linear scan returns. -/
theorem claim_C7_amended (vi di : Option Json) (results : List Json)
    (hwf : resultsWellFormed results) (idx : ℤ) :
    get_frame_detections ⟨vi, di, results⟩ idx none
      = .ok (specFirstMatch results idx) := by
  obtain ⟨hall, hnd⟩ := hwf
  show Except.ok (gfdLookup results idx) = Except.ok (specFirstMatch results idx)
  congr 1
  rw [gfdLookup]
  split
  · next h =>
    obtain ⟨k, hk⟩ := Option.isSome_iff_exists.mp
      (hall (results.get ⟨idx.toNat, h.2⟩) (List.get_mem results _ _))
    obtain ⟨kvs, q, hobj, hv, hden, hnum⟩ := entryFrame_char _ k hk
    rw [hobj]
    show (if pyEqInt ((dictGet "frame" kvs).getD Json.null) idx = true
          then detectionsOf (Json.obj kvs) else gfdScan idx results)
        = specFirstMatch results idx
    rw [hv]
    by_cases hqi : q.num = idx
    · rw [if_pos (by show decide (q.den = 1 ∧ q.num = idx) = true; simp [hden, hqi])]
      have h1 := gfdScan_get idx results idx.toNat h.2 hall hnd (by rw [hk, ← hnum, hqi])
      rw [hobj] at h1
      rw [← gfdScan_eq_spec idx results hall, h1]
    · rw [if_neg (by show ¬ decide (q.den = 1 ∧ q.num = idx) = true; simp [hqi])]
      exact gfdScan_eq_spec idx results hall
  · next h => exact gfdScan_eq_spec idx results hall

theorem claim_C7_amended_witness :
    resultsWellFormed [Json.obj [("frame", Json.num 0),
      ("detections", Json.arr [Json.null])]] ∧
    get_frame_detections
        ⟨none, none, [Json.obj [("frame", Json.num 0),
          ("detections", Json.arr [Json.null])]]⟩ 0 none
      = .ok (specFirstMatch [Json.obj [("frame", Json.num 0),
          ("detections", Json.arr [Json.null])]] 0) :=
  ⟨⟨by decide, by decide⟩,
   claim_C7_amended none none
     [Json.obj [("frame", Json.num 0), ("detections", Json.arr [Json.null])]]
     ⟨by decide, by decide⟩ 0⟩
